import Mathlib

/-! apollo-sfs backend: token-lifecycle middleware and object namespace facade.

A shallow embedding of `backend/middleware.go`, `backend/minio_service.go` and the
file-listing handler of `backend/handlers.go`, with the properties of the design
document stated and proved over it.

External collaborators are inputs of the model:

* the JWT library (`ParseUnverified`) is a function from the token string to the
  parsed token or an error;
* the wall clock (`time.Now()`) is the argument `now`;
* the identity provider behind `KeycloakService` answers each call as a function
  of the calls made so far and of the argument of the call;
* the object store behind `minio.Client` is the content of the configured bucket.
-/

namespace ApolloSFS

/-! ## Go library: time, strings, strconv, runes -/

/-- An instant (`time.Time`), in nanoseconds since the epoch. -/
abbrev Time := Int

/-- A `time.Duration`: a signed 64-bit count of nanoseconds. -/
abbrev Duration := Int

/-- `time.Second`. -/
def Second : Duration := 1000000000

/-- `time.Minute`. -/
def Minute : Duration := 60 * Second

/-- The smallest `time.Duration`. -/
def minDuration : Duration := -9223372036854775808

/-- The largest `time.Duration`. -/
def maxDuration : Duration := 9223372036854775807

/-- `t.Before(u)`: the instant `t` is strictly before `u`. -/
def Time.Before (t u : Time) : Bool := decide (t < u)

/-- `t.After(u)`: the instant `t` is strictly after `u`. -/
def Time.After (t u : Time) : Bool := decide (u < t)

/-- `t.Sub(u)`: the duration `t - u`, saturated at the ends of the `Duration` range. -/
def Time.Sub (t u : Time) : Duration :=
  if t - u < minDuration then minDuration
  else if maxDuration < t - u then maxDuration
  else t - u

/-- Reduction of an integer to the signed 64-bit range (Go `int`, `int64` arithmetic). -/
def wrapInt64 (n : Int) : Int :=
  let m := n % 18446744073709551616
  if m < 9223372036854775808 then m else m - 18446744073709551616

/-- Splitting of a list of characters at every occurrence of `sep`. -/
def splitChars (sep : Char) : List Char → List (List Char)
  | [] => [[]]
  | c :: cs =>
    if c = sep then [] :: splitChars sep cs
    else
      match splitChars sep cs with
      | [] => [[c]]
      | p :: ps => (c :: p) :: ps

/-- `strings.Split(s, sep)` for a separator of one character: the substrings
between the occurrences of `sep`, empty ones included. -/
def strings.Split (s : String) (sep : Char) : List String :=
  (splitChars sep s.data).map String.mk

/-- `strings.HasPrefix(s, p)`; also the test a listing applies to a key. -/
def strings.HasPrefix (s p : String) : Bool := p.data.isPrefixOf s.data

/-- `fmt.Sprintf("%s/%s", a, b)`. -/
def sprintfSlash (a b : String) : String := a ++ "/" ++ b

/-- `fmt.Sprintf("%s/", a)`. -/
def sprintfDir (a : String) : String := a ++ "/"

/-- The value of a run of decimal digits, `none` when a character is not a digit. -/
def digitsValue : List Char → Nat → Option Nat
  | [], acc => some acc
  | ch :: rest, acc =>
    if 48 ≤ ch.toNat ∧ ch.toNat ≤ 57 then digitsValue rest (acc * 10 + (ch.toNat - 48))
    else none

/-- `strconv.Atoi(s)`: an optional sign and at least one decimal digit, within
the range of a 64-bit `int`; `none` stands for the error result. -/
def strconv.Atoi (s : String) : Option Int :=
  let body : List Char :=
    match s.data with
    | '-' :: rest => rest
    | '+' :: rest => rest
    | cs => cs
  if body = [] then none
  else
    match digitsValue body 0 with
    | none => none
    | some v =>
      let n : Int := if s.data.head? = some '-' then - (v : Int) else (v : Int)
      if n < -9223372036854775808 ∨ 9223372036854775807 < n then none else some n

/-- The conversion `rune(n)` of an `int`: the low 32 bits, read as signed. -/
def rune (n : Int) : Int :=
  let m := n % 4294967296
  if m < 2147483648 then m else m - 4294967296

/-- The conversion `string(r)` of a rune: the one code point `r`, or U+FFFD when
`r` is not a valid code point. -/
def stringOfRune (r : Int) : String :=
  if 0 ≤ r ∧ (r < 55296 ∨ (57343 < r ∧ r ≤ 1114111)) then String.singleton (Char.ofNat r.toNat)
  else String.singleton (Char.ofNat 65533)

/-! ## Token Inspector (`middleware.go`) -/

/-- The claims of an access token: the registered claims the code reads and the
custom ones of `TokenClaims`. -/
structure TokenClaims where
  Subject : String
  ExpiresAt : Option Time
  NotBefore : Option Time
  IssuedAt : Option Time
  Username : String
  Email : String
  EmailVerified : Bool
deriving DecidableEq, Repr

/-- The dynamic type of `token.Claims`. -/
inductive Claims where
  | tokenClaims (claims : TokenClaims)
  | other
deriving DecidableEq, Repr

/-- A parsed `jwt.Token`. -/
structure Token where
  Claims : Claims
deriving DecidableEq, Repr

/-- `isTokenExpired(tokenString)`: `parseUnverified` is
`jwt.NewParser(jwt.WithoutClaimsValidation()).ParseUnverified(_, &TokenClaims{})`
and `now` is `time.Now()`. -/
def isTokenExpired (parseUnverified : String → Except String Token) (now : Time)
    (tokenString : String) : Bool × Duration :=
  match parseUnverified tokenString with
  | .error _ => (true, 0)
  | .ok token =>
    match token.Claims with
    | .other => (true, 0)
    | .tokenClaims claims =>
      match claims.ExpiresAt with
      | none => (true, 0)
      | some expiryTime =>
        if Time.Before expiryTime now then (true, 0)
        else (false, Time.Sub expiryTime now)

/-! ## Identity Gateway (`auth_service.go`) -/

/-- `TokenResponse`. -/
structure TokenResponse where
  AccessToken : String
  ExpiresIn : Int
  RefreshExpiresIn : Int
  RefreshToken : String
  TokenType : String
  IDToken : String
  SessionState : String
  Scope : String
deriving DecidableEq, Repr

/-- `UserInfo`. -/
structure UserInfo where
  Sub : String
  EmailVerified : Bool
  Email : String
  GivenName : String
  FamilyName : String
deriving DecidableEq, Repr

/-- A round trip to the identity provider made by the middleware. -/
inductive Call where
  | RefreshToken (refreshToken : String)
  | GetUserInfo (accessToken : String)
deriving DecidableEq, Repr

/-- `KeycloakService`, seen from the middleware: each operation is one HTTP round
trip whose result (the decoded body on status 200, an error otherwise) is decided
by the provider. The first argument is the list of calls made before this one, so
that the provider may answer differently after a refresh. -/
structure KeycloakService where
  RefreshToken : List Call → String → Except String TokenResponse
  GetUserInfo : List Call → String → Except String UserInfo

/-! ## Object store records (`minio_service.go`) -/

/-- `FileMetadata`. -/
structure FileMetadata where
  Key : String
  Name : String
  Size : Int
  ContentType : String
  LastModified : Time
  ETag : String
deriving DecidableEq, Repr

/-! ## The request context (`gin.Context`) -/

/-- A value stored in the context with `c.Set`. -/
inductive Value where
  | userInfo (u : UserInfo)
  | str (s : String)
deriving DecidableEq, Repr

/-- A value of a JSON response body (`gin.H`). -/
inductive JSONValue where
  | str (s : String)
  | bool (b : Bool)
  | files (fs : List FileMetadata)
deriving DecidableEq, Repr

/-- The part of `gin.Context` the middleware and the handlers touch: the request
headers and query, the key/value store, the response headers, the responses
written with `c.JSON`, the abort flag and the number of times the rest of the
chain (the downstream handler) was run. -/
structure Context where
  reqHeader : List (String × String)
  query : List (String × String)
  Keys : List (String × Value)
  respHeader : List (String × String)
  written : List (Nat × List (String × JSONValue))
  aborted : Bool
  handlerRuns : Nat
deriving DecidableEq, Repr

/-- `c.GetHeader(key)`: the first value of the request header, `""` when absent. -/
def Context.GetHeader (c : Context) (key : String) : String :=
  match c.reqHeader.lookup key with
  | some v => v
  | none => ""

/-- `c.Query(key)`: the value of the query parameter, `""` when absent. -/
def Context.Query (c : Context) (key : String) : String :=
  match c.query.lookup key with
  | some v => v
  | none => ""

/-- `c.DefaultQuery(key, defaultValue)`. -/
def Context.DefaultQuery (c : Context) (key defaultValue : String) : String :=
  match c.query.lookup key with
  | some v => v
  | none => defaultValue

/-- `c.Set(key, value)`. -/
def Context.Set (c : Context) (key : String) (value : Value) : Context :=
  { c with Keys := (key, value) :: c.Keys.filter (fun kv => kv.1 != key) }

/-- `c.Get(key)`. -/
def Context.Get (c : Context) (key : String) : Option Value :=
  c.Keys.lookup key

/-- `c.GetString(key)`: the stored string, `""` when absent or not a string. -/
def Context.GetString (c : Context) (key : String) : String :=
  match c.Get key with
  | some (.str s) => s
  | _ => ""

/-- `c.Header(key, value)`: sets the response header, and removes it when the
value is empty. -/
def Context.Header (c : Context) (key value : String) : Context :=
  if value = "" then { c with respHeader := c.respHeader.filter (fun kv => kv.1 != key) }
  else { c with respHeader := (key, value) :: c.respHeader.filter (fun kv => kv.1 != key) }

/-- The value of a response header (`c.Writer.Header().Get(key)`), `""` when absent. -/
def Context.respGet (c : Context) (key : String) : String :=
  match c.respHeader.lookup key with
  | some v => v
  | none => ""

/-- `c.JSON(code, obj)`: writes a response with the given status and body. -/
def Context.JSON (c : Context) (code : Nat) (obj : List (String × JSONValue)) : Context :=
  { c with written := c.written ++ [(code, obj)] }

/-- `c.Abort()`: the remaining handlers of the chain will not run. -/
def Context.Abort (c : Context) : Context :=
  { c with aborted := true }

/-- `c.Next()`: runs the rest of the chain, unless the context is aborted. Only
the fact that the downstream handler ran is recorded. -/
def Context.Next (c : Context) : Context :=
  if c.aborted then c else { c with handlerRuns := c.handlerRuns + 1 }

/-- `http.StatusUnauthorized`. -/
def StatusUnauthorized : Nat := 401

/-- `http.StatusOK`. -/
def StatusOK : Nat := 200

/-- `http.StatusInternalServerError`. -/
def StatusInternalServerError : Nat := 500

/-! ## Auth Decision Middleware (`middleware.go`) -/

/-- Lines 71-84 of `AuthMiddleware`: the subject is resolved with a userinfo call
on the presented access token. -/
def AuthMiddleware.resolvePresented (keycloak : KeycloakService) (accessToken : String)
    (calls : List Call) (c : Context) : Context × List Call :=
  match keycloak.GetUserInfo calls accessToken with
  | .error err =>
    (((c.JSON StatusUnauthorized
        [("error", .str "Invalid token"), ("errorDescription", .str err)]).Abort),
      calls ++ [Call.GetUserInfo accessToken])
  | .ok userInfo =>
    ((((c.Set "userInfo" (.userInfo userInfo)).Set "accessToken" (.str accessToken)).Next),
      calls ++ [Call.GetUserInfo accessToken])

/-- Lines 59-69 of `AuthMiddleware`, reached when the refresh or the userinfo
call on the new token failed: an expired token is rejected, a token that is
still valid falls through to line 71. -/
def AuthMiddleware.afterFailedRefresh (keycloak : KeycloakService) (accessToken : String)
    (expired : Bool) (calls : List Call) (c : Context) : Context × List Call :=
  if expired then
    (((c.JSON StatusUnauthorized
        [("error", .str "Token expired"), ("refreshRequired", .bool true),
         ("errorDescription", .str "Please login again")]).Abort),
      calls)
  else AuthMiddleware.resolvePresented keycloak accessToken calls c

/-- The handler returned by `AuthMiddleware(keycloak)`, run on the context `c`
when the identity provider has already been asked `calls`. The result is the
context at return and the calls made up to then. -/
def AuthMiddleware (keycloak : KeycloakService) (parseUnverified : String → Except String Token)
    (now : Time) (calls : List Call) (c : Context) : Context × List Call :=
  let authHeader := c.GetHeader "Authorization"
  if authHeader = "" then
    (((c.JSON StatusUnauthorized [("error", .str "Authorization header required")]).Abort), calls)
  else
    let parts := strings.Split authHeader ' '
    if parts.length ≠ 2 ∨ parts.getD 0 "" ≠ "Bearer" then
      (((c.JSON StatusUnauthorized
          [("error", .str "Invalid authorization header format")]).Abort), calls)
    else
      let accessToken := parts.getD 1 ""
      let refreshToken := c.GetHeader "X-Refresh-Token"
      let inspected := isTokenExpired parseUnverified now accessToken
      let expired := inspected.1
      let expiresIn := inspected.2
      if (expired = true ∨ expiresIn < 2 * Minute) ∧ refreshToken ≠ "" then
        match keycloak.RefreshToken calls refreshToken with
        | .ok newTokens =>
          let calls1 := calls ++ [Call.RefreshToken refreshToken]
          match keycloak.GetUserInfo calls1 newTokens.AccessToken with
          | .ok userInfo =>
            let c1 := c.Set "userInfo" (.userInfo userInfo)
            let c2 := c1.Set "accessToken" (.str newTokens.AccessToken)
            let c3 := c2.Set "refreshToken" (.str newTokens.RefreshToken)
            let c4 := c3.Header "X-New-Access-Token" newTokens.AccessToken
            let c5 := c4.Header "X-New-Refresh-Token" newTokens.RefreshToken
            let c6 := c5.Header "X-Token-Refreshed" "true"
            let c7 := c6.Header "X-Token-Expires-In" (stringOfRune (rune newTokens.ExpiresIn))
            (c7.Next, calls1 ++ [Call.GetUserInfo newTokens.AccessToken])
          | .error _ =>
            AuthMiddleware.afterFailedRefresh keycloak accessToken expired
              (calls1 ++ [Call.GetUserInfo newTokens.AccessToken]) c
        | .error _ =>
          AuthMiddleware.afterFailedRefresh keycloak accessToken expired
            (calls ++ [Call.RefreshToken refreshToken]) c
      else AuthMiddleware.resolvePresented keycloak accessToken calls c

/-- The handler returned by `ProactiveTokenRefreshMiddleware(keycloak, thresholdMinutes)`. -/
def ProactiveTokenRefreshMiddleware (keycloak : KeycloakService)
    (parseUnverified : String → Except String Token) (now : Time) (thresholdMinutes : Int)
    (calls : List Call) (c : Context) : Context × List Call :=
  let accessToken := c.GetString "accessToken"
  let refreshToken := c.GetHeader "X-Refresh-Token"
  if accessToken ≠ "" ∧ refreshToken ≠ "" then
    let inspected := isTokenExpired parseUnverified now accessToken
    let expired := inspected.1
    let expiresIn := inspected.2
    let threshold := wrapInt64 (thresholdMinutes * Minute)
    if expired = false ∧ expiresIn < threshold ∧ expiresIn > 0 then
      match keycloak.RefreshToken calls refreshToken with
      | .ok newTokens =>
        let c1 := c.Header "X-New-Access-Token" newTokens.AccessToken
        let c2 := c1.Header "X-New-Refresh-Token" newTokens.RefreshToken
        let c3 := c2.Header "X-Token-Refreshed" "true"
        let c4 := c3.Header "X-Token-Expires-In" (stringOfRune (rune newTokens.ExpiresIn))
        (c4.Next, calls ++ [Call.RefreshToken refreshToken])
      | .error _ => (c.Next, calls ++ [Call.RefreshToken refreshToken])
    else (c.Next, calls)
  else (c.Next, calls)

/-! ## Object Namespace Facade (`minio_service.go`) -/

/-- An object held by the bucket. -/
structure Object where
  Key : String
  Content : String
  Size : Int
  ContentType : String
  LastModified : Time
  ETag : String
  UserMetadata : List (String × String)
deriving DecidableEq, Repr

/-- An item received from the channel of `ListObjects` (`minio.ObjectInfo`). -/
structure ObjectInfo where
  Key : String
  Size : Int
  ContentType : String
  LastModified : Time
  ETag : String
  Err : Option String
deriving DecidableEq, Repr

/-- `minio.ListObjectsOptions`, the fields the facade sets. -/
structure ListObjectsOptions where
  Prefix : String
  Recursive : Bool
  MaxKeys : Int
  StartAfter : String
deriving DecidableEq, Repr

/-- The result of `PutObject` (`minio.UploadInfo`), the fields the facade reads. -/
structure UploadInfo where
  Key : String
  Size : Int
  ETag : String
deriving DecidableEq, Repr

/-- The content of the configured bucket: its objects, in the order in which the
store lists them. -/
abbrev Bucket := List Object

/-- The order of keys in a listing: byte-wise, which on strings is the
lexicographic order of their code points. -/
def keyLess (a b : String) : Bool := decide (a.data < b.data)

/-- The invariant of a bucket: keys strictly ascending (so no key twice). -/
def Bucket.Ascending (b : Bucket) : Prop :=
  List.Pairwise (fun x y : Object => x.Key.data < y.Key.data) b

/-- The listing entry of a stored object. -/
def Object.info (o : Object) : ObjectInfo :=
  { Key := o.Key, Size := o.Size, ContentType := o.ContentType,
    LastModified := o.LastModified, ETag := o.ETag, Err := none }

/-- `client.ListObjects(ctx, bucket, opts)` with `Recursive: true`: what the
channel delivers. The client pages through the whole listing (`MaxKeys` is the
size of one page of the underlying requests), so the channel carries every object
whose key has the prefix and is strictly after `StartAfter`, in bucket order. -/
def Client.ListObjects (bucket : Bucket) (opts : ListObjectsOptions) : List ObjectInfo :=
  (bucket.filter (fun o =>
    strings.HasPrefix o.Key opts.Prefix &&
      (decide (opts.StartAfter = "") || keyLess opts.StartAfter o.Key))).map Object.info

/-- Insertion of an object at its place in the key order, over an object of the
same key when there is one. -/
def Bucket.put : Bucket → Object → Bucket
  | [], o => [o]
  | x :: xs, o =>
    if keyLess o.Key x.Key then o :: x :: xs
    else if o.Key = x.Key then o :: xs
    else x :: Bucket.put xs o

/-- `client.PutObject(ctx, bucket, objectName, reader, size, opts)`: the object is
stored under `objectName`, replacing an earlier one; `etag` and `modified` are
assigned by the store. -/
def Client.PutObject (bucket : Bucket) (objectName content : String) (size : Int)
    (contentType : String) (userMetadata : List (String × String)) (etag : String)
    (modified : Time) : Except String (UploadInfo × Bucket) :=
  .ok ({ Key := objectName, Size := size, ETag := etag },
    bucket.put { Key := objectName, Content := content, Size := size, ContentType := contentType,
                 LastModified := modified, ETag := etag, UserMetadata := userMetadata })

/-- `client.StatObject(ctx, bucket, objectName, opts)`. -/
def Client.StatObject (bucket : Bucket) (objectName : String) : Except String ObjectInfo :=
  match bucket.find? (fun o => o.Key == objectName) with
  | some o => .ok o.info
  | none => .error "The specified key does not exist."

/-- `client.GetObject(ctx, bucket, objectName, opts)`: the content to be read. -/
def Client.GetObject (bucket : Bucket) (objectName : String) : Except String String :=
  match bucket.find? (fun o => o.Key == objectName) with
  | some o => .ok o.Content
  | none => .error "The specified key does not exist."

/-- `client.RemoveObject(ctx, bucket, objectName, opts)`: removing an absent key
succeeds. -/
def Client.RemoveObject (bucket : Bucket) (objectName : String) : Except String Bucket :=
  .ok (bucket.filter (fun o => o.Key != objectName))

/-- `MinioService`: the client, here the bucket it operates on, and the bucket name. -/
structure MinioService where
  client : Bucket
  bucketName : String
deriving DecidableEq, Repr

/-- `UploadFile`: `uploadTime` is `time.Now().Format(time.RFC3339)`; `etag` and
`modified` are what the store assigns. The returned record leaves `LastModified`
at its zero value, written `0`. The second component is the service after the
upload. -/
def MinioService.UploadFile (s : MinioService) (userID fileName content : String) (size : Int)
    (contentType uploadTime etag : String) (modified : Time) :
    Except String (FileMetadata × MinioService) :=
  let objectName := sprintfSlash userID fileName
  match Client.PutObject s.client objectName content size contentType
      [("uploaded-by", userID), ("upload-time", uploadTime)] etag modified with
  | .error err => .error ("failed to upload file: " ++ err)
  | .ok (info, bucket) =>
    .ok ({ Key := objectName, Name := fileName, Size := info.Size, ContentType := contentType,
           LastModified := 0, ETag := info.ETag },
         { s with client := bucket })

/-- `GetFile`: the content to be read and the metadata of the object. -/
def MinioService.GetFile (s : MinioService) (userID fileKey : String) :
    Except String (String × FileMetadata) :=
  let objectName := sprintfSlash userID fileKey
  match Client.StatObject s.client objectName with
  | .error err => .error ("file not found: " ++ err)
  | .ok info =>
    match Client.GetObject s.client objectName with
    | .error err => .error ("failed to get file: " ++ err)
    | .ok object =>
      .ok (object,
        { Key := objectName, Name := fileKey, Size := info.Size, ContentType := info.ContentType,
          LastModified := info.LastModified, ETag := info.ETag })

/-- The loop of `ListFiles` over the items of the channel: `files` and `count`
are the variables of the same name. Every item of a listing carries the prefix,
so that `object.Key[len(prefix):]` is the key without its first `len(prefix)`
characters. -/
def MinioService.ListFiles.loop (pfx : String) (limit : Int) :
    List ObjectInfo → List FileMetadata → Int → Except String (List FileMetadata × String)
  | [], files, _ => .ok (files, "")
  | object :: rest, files, count =>
    match object.Err with
    | some err => .error ("error listing objects: " ++ err)
    | none =>
      let displayName := object.Key.drop pfx.length
      let files1 := files ++ [{ Key := object.Key, Name := displayName, Size := object.Size,
                                ContentType := object.ContentType,
                                LastModified := object.LastModified, ETag := object.ETag }]
      let count1 := count + 1
      if count1 ≥ limit then .ok (files1, object.Key)
      else MinioService.ListFiles.loop pfx limit rest files1 count1

/-- `ListFiles`: the files and the next cursor. -/
def MinioService.ListFiles (s : MinioService) (userID : String) (limit : Int) (offset : String) :
    Except String (List FileMetadata × String) :=
  let pfx := sprintfDir userID
  let opts : ListObjectsOptions :=
    { Prefix := pfx, Recursive := true, MaxKeys := limit, StartAfter := "" }
  let opts1 := if offset ≠ "" then { opts with StartAfter := offset } else opts
  MinioService.ListFiles.loop pfx limit (Client.ListObjects s.client opts1) [] 0

/-- `DeleteFile`: the service after the removal. -/
def MinioService.DeleteFile (s : MinioService) (userID fileKey : String) :
    Except String MinioService :=
  let objectName := sprintfSlash userID fileKey
  match Client.RemoveObject s.client objectName with
  | .error err => .error ("failed to delete file: " ++ err)
  | .ok bucket => .ok { s with client := bucket }

/-- `GetPresignedURL`: `presignedGetObject` is `client.PresignedGetObject`, which
signs a URL for the bucket name, object name and expiry it is given. -/
def MinioService.GetPresignedURL (s : MinioService)
    (presignedGetObject : String → String → Duration → Except String String)
    (userID fileKey : String) (expiry : Duration) : Except String String :=
  let objectName := sprintfSlash userID fileKey
  match presignedGetObject s.bucketName objectName expiry with
  | .error err => .error ("failed to generate presigned URL: " ++ err)
  | .ok url => .ok url

/-! ## The listing handler (`handlers.go`) -/

/-- `FileHandler.ListFiles`, for the service `minio` of the handler: the context
at return, or `none` when the handler panics because the context holds no
`*UserInfo` under `userInfo`. -/
def FileHandler.ListFiles (minio : MinioService) (c : Context) : Option Context :=
  match c.Get "userInfo" with
  | some (.userInfo user) =>
    let limitStr := c.DefaultQuery "limit" "20"
    let cursor := c.Query "cursor"
    let limit : Int :=
      match strconv.Atoi limitStr with
      | none => 20
      | some n => if n ≤ 0 ∨ n > 100 then 20 else n
    match minio.ListFiles user.Sub limit cursor with
    | .error err => some (c.JSON StatusInternalServerError [("error", .str err)])
    | .ok (files, nextCursor) =>
      let response : List (String × JSONValue) := [("files", .files files)]
      let response1 :=
        if nextCursor ≠ "" then
          response ++ [("nextCursor", .str nextCursor), ("hasMore", .bool true)]
        else response ++ [("hasMore", .bool false)]
      some (c.JSON StatusOK response1)
  | _ => none

/-! ## Example inputs and auxiliary predicates -/

/-- The identity provider of the examples: it rejects every refresh token and
every access token. -/
def rejectingProvider : KeycloakService :=
  { RefreshToken := fun _ _ => .error "keycloak refresh failed"
    GetUserInfo := fun _ _ => .error "failed to get user info" }

/-- The identity provider of the examples that accepts every access token as the
subject `u123` and rejects every refresh token. -/
def acceptingProvider : KeycloakService :=
  { RefreshToken := fun _ _ => .error "keycloak refresh failed"
    GetUserInfo := fun _ _ => .ok ⟨"u123", true, "alice@example.com", "Alice", "A"⟩ }

/-- The parser of the examples: every token string carries the expiry `expiry`. -/
def parseWithExpiry (expiry : Time) : String → Except String Token :=
  fun _ => .ok ⟨.tokenClaims ⟨"u123", some expiry, none, none, "alice", "", false⟩⟩

/-- A request of the examples, with the given request headers and nothing else. -/
def requestWith (headers : List (String × String)) : Context :=
  { reqHeader := headers, query := [], Keys := [], respHeader := [], written := [],
    aborted := false, handlerRuns := 0 }

/-- The calls a failed refresh sequence leaves behind: the refresh call alone
when it fails, the refresh call and the userinfo call on the new access token
when the refresh succeeds and that userinfo call fails. -/
def RefreshSequenceFails (keycloak : KeycloakService) (calls : List Call)
    (refreshToken : String) (callsAfter : List Call) : Prop :=
  (∃ err, keycloak.RefreshToken calls refreshToken = .error err
      ∧ callsAfter = calls ++ [Call.RefreshToken refreshToken])
    ∨ (∃ newTokens err, keycloak.RefreshToken calls refreshToken = .ok newTokens
      ∧ keycloak.GetUserInfo (calls ++ [Call.RefreshToken refreshToken]) newTokens.AccessToken
          = .error err
      ∧ callsAfter = calls ++ [Call.RefreshToken refreshToken,
          Call.GetUserInfo newTokens.AccessToken])

/-- The provider of the examples whose refresh succeeds with new tokens and
whose userinfo call rejects every token. -/
def refreshOnlyProvider : KeycloakService :=
  { RefreshToken := fun _ _ => .ok ⟨"newAccess", 300, 1800, "newRefresh", "Bearer", "", "", ""⟩
    GetUserInfo := fun _ _ => .error "failed to get user info" }

/-- The same request without the request header `key`. -/
def Context.withoutHeader (c : Context) (key : String) : Context :=
  { c with reqHeader := c.reqHeader.filter (fun kv => kv.1 != key) }

/-- What a run leaves for the rest of the chain and for the client: the values
attached to the context, the response headers, the responses written, the abort
flag and the number of runs of the downstream handler. -/
def Context.outcome (c : Context) :
    List (String × Value) × List (String × String) × List (Nat × List (String × JSONValue))
      × Bool × Nat :=
  (c.Keys, c.respHeader, c.written, c.aborted, c.handlerRuns)

/-- The provider of the examples whose refresh succeeds with new tokens and
whose userinfo call accepts every token as the subject `u123`. -/
def rotatingProvider : KeycloakService :=
  { RefreshToken := fun _ _ => .ok ⟨"newAccess", 300, 1800, "newRefresh", "Bearer", "", "", ""⟩
    GetUserInfo := fun _ _ => .ok ⟨"u123", true, "alice@example.com", "Alice", "A"⟩ }

/-- The file record the loop of `ListFiles` appends for a channel item. -/
def ObjectInfo.toFile (pfx : String) (object : ObjectInfo) : FileMetadata :=
  { Key := object.Key, Name := object.Key.drop pfx.length, Size := object.Size,
    ContentType := object.ContentType, LastModified := object.LastModified, ETag := object.ETag }

/-- The number of items after which the loop of `ListFiles` stops when `count`
items were counted before: `limit - count`, and one when that is not positive. -/
def pageSize (limit count : Int) : Nat := (max 1 (limit - count)).toNat

/-- The full listing of a subject: every object of the bucket under the prefix
`userID/`, in bucket order, as file records. -/
def MinioService.subjectFiles (s : MinioService) (userID : String) : List FileMetadata :=
  ((s.client.filter (fun o => strings.HasPrefix o.Key (sprintfDir userID))).map
    Object.info).map (ObjectInfo.toFile (sprintfDir userID))

/-- The bucket of the examples after subject `u123` uploaded `report.pdf` to the
empty bucket. -/
def reportBucket : MinioService :=
  match MinioService.UploadFile { client := [], bucketName := "files" } "u123" "report.pdf" "%PDF"
      4 "application/pdf" "2025-01-01T00:00:00Z" "etag-1" 1735689600 with
  | .ok (_, s) => s
  | .error _ => { client := [], bucketName := "files" }

/-- The file record of `report.pdf` in the listings of `reportBucket`. -/
def reportFile : FileMetadata :=
  { Key := "u123/report.pdf", Name := "report.pdf", Size := 4, ContentType := "application/pdf",
    LastModified := 1735689600, ETag := "etag-1" }

/-- A listing request of the examples: subject `u123` resolved by the
middleware, and the query parameter `limit`. -/
def listRequest (limit : String) : Context :=
  { reqHeader := [("Authorization", "Bearer tok")], query := [("limit", limit)],
    Keys := [("accessToken", .str "tok"),
             ("userInfo", .userInfo ⟨"u123", true, "alice@example.com", "Alice", "A"⟩)],
    respHeader := [], written := [], aborted := false, handlerRuns := 1 }

/-- A bucket of the examples: three files of subject `u123` and one of `u456`. -/
def threeFilesBucket : MinioService :=
  { client :=
      [ { Key := "u123/a.txt", Content := "a", Size := 1, ContentType := "text/plain",
          LastModified := 1, ETag := "e1", UserMetadata := [] },
        { Key := "u123/b.txt", Content := "b", Size := 1, ContentType := "text/plain",
          LastModified := 2, ETag := "e2", UserMetadata := [] },
        { Key := "u123/c.txt", Content := "c", Size := 1, ContentType := "text/plain",
          LastModified := 3, ETag := "e3", UserMetadata := [] },
        { Key := "u456/a.txt", Content := "d", Size := 1, ContentType := "text/plain",
          LastModified := 4, ETag := "e4", UserMetadata := [] } ],
    bucketName := "files" }

/-- The bucket of the examples after subject `a/b` uploaded the file name `c` to
the empty bucket. -/
def nestedSubjectBucket : MinioService :=
  match MinioService.UploadFile { client := [], bucketName := "files" } "a/b" "c" "secret"
      6 "text/plain" "2025-01-01T00:00:00Z" "etag-2" 1735689600 with
  | .ok (_, s) => s
  | .error _ => { client := [], bucketName := "files" }

/-- A request of the examples as the proactive stage receives it: the access
token `tok` attached by the stage before it, and the given request headers. -/
def resolvedRequest (headers : List (String × String)) : Context :=
  { reqHeader := headers, query := [],
    Keys := [("accessToken", .str "tok"),
             ("userInfo", .userInfo ⟨"u123", true, "alice@example.com", "Alice", "A"⟩)],
    respHeader := [], written := [], aborted := false, handlerRuns := 0 }

/-- The valid Unicode code points: `0 .. 0x10FFFF` without the surrogates
`0xD800 .. 0xDFFF`. -/
def IsCodePoint (r : Int) : Prop := 0 ≤ r ∧ (r < 55296 ∨ (57343 < r ∧ r ≤ 1114111))

/-- The provider of the examples whose refresh succeeds with the given
`expires_in` and whose userinfo call accepts every token as the subject `u123`. -/
def providerWithExpiresIn (expiresIn : Int) : KeycloakService :=
  { RefreshToken := fun _ _ =>
      .ok ⟨"newAccess", expiresIn, 1800, "newRefresh", "Bearer", "", "", ""⟩
    GetUserInfo := fun _ _ => .ok ⟨"u123", true, "alice@example.com", "Alice", "A"⟩ }

/-- The provider of the examples whose refresh succeeds with a new access token
and an empty refresh token (a token response without `refresh_token`), and whose
userinfo call accepts every token as the subject `u123`. -/
def accessOnlyProvider : KeycloakService :=
  { RefreshToken := fun _ _ => .ok ⟨"newAccess", 300, 0, "", "Bearer", "", "", ""⟩
    GetUserInfo := fun _ _ => .ok ⟨"u123", true, "alice@example.com", "Alice", "A"⟩ }



/-! ## Lemmas on the request context -/

theorem lookup_cons_filter_self {β : Type} (l : List (String × β)) (k : String) (v : β) :
    List.lookup k ((k, v) :: l.filter (fun kv => kv.1 != k)) = some v := by
  simp [List.lookup]

theorem lookup_filter_ne {β : Type} (l : List (String × β)) (k k' : String) (h : k' ≠ k) :
    List.lookup k' (l.filter (fun kv => kv.1 != k)) = List.lookup k' l := by
  induction l with
  | nil => rfl
  | cons x xs ih =>
    obtain ⟨a, b⟩ := x
    by_cases hak : a = k
    · subst hak
      have h1 : (k' == a) = false := by simpa using h
      simp [List.filter, List.lookup, h1, ih]
    · have h2 : (a != k) = true := by simpa using hak
      simp only [List.filter, h2, List.lookup, ih]

theorem Context.Get_Set_self (c : Context) (k : String) (v : Value) :
    (c.Set k v).Get k = some v := by
  simp [Context.Set, Context.Get, List.lookup]

theorem Context.Get_Set_ne (c : Context) (k k' : String) (v : Value) (h : k' ≠ k) :
    (c.Set k v).Get k' = c.Get k' := by
  have h1 : (k' == k) = false := by simpa using h
  simp [Context.Set, Context.Get, List.lookup, h1, lookup_filter_ne _ _ _ h]

theorem Context.Keys_Next (c : Context) : c.Next.Keys = c.Keys := by
  unfold Context.Next
  split <;> rfl

theorem Context.respHeader_Next (c : Context) : c.Next.respHeader = c.respHeader := by
  unfold Context.Next
  split <;> rfl

theorem Context.written_Next (c : Context) : c.Next.written = c.written := by
  unfold Context.Next
  split <;> rfl

theorem Context.aborted_Next (c : Context) : c.Next.aborted = c.aborted := by
  unfold Context.Next
  split <;> rfl

theorem Context.Get_Next (c : Context) (k : String) : c.Next.Get k = c.Get k := by
  unfold Context.Get
  rw [Context.Keys_Next]

theorem Context.respGet_Next (c : Context) (k : String) : c.Next.respGet k = c.respGet k := by
  unfold Context.respGet
  rw [Context.respHeader_Next]

theorem Context.Keys_Header (c : Context) (k v : String) : (c.Header k v).Keys = c.Keys := by
  unfold Context.Header
  split <;> rfl

theorem Context.written_Header (c : Context) (k v : String) :
    (c.Header k v).written = c.written := by
  unfold Context.Header
  split <;> rfl

theorem Context.aborted_Header (c : Context) (k v : String) :
    (c.Header k v).aborted = c.aborted := by
  unfold Context.Header
  split <;> rfl

theorem Context.handlerRuns_Header (c : Context) (k v : String) :
    (c.Header k v).handlerRuns = c.handlerRuns := by
  unfold Context.Header
  split <;> rfl

theorem Context.Get_Header (c : Context) (k v k' : String) : (c.Header k v).Get k' = c.Get k' := by
  unfold Context.Get
  rw [Context.Keys_Header]

theorem lookup_filter_self {β : Type} (l : List (String × β)) (k : String) :
    List.lookup k (l.filter (fun kv => kv.1 != k)) = none := by
  induction l with
  | nil => rfl
  | cons x xs ih =>
    obtain ⟨a, b⟩ := x
    by_cases hak : a = k
    · subst hak
      simp [List.filter, ih]
    · have h2 : (a != k) = true := by simpa using hak
      have h3 : (k == a) = false := by simpa using fun h : k = a => hak h.symm
      simp only [List.filter, h2, List.lookup, h3, ih]

theorem Context.respGet_Header_self (c : Context) (k v : String) :
    (c.Header k v).respGet k = v := by
  unfold Context.Header Context.respGet
  by_cases h : v = ""
  · rw [if_pos h]
    show (match List.lookup k (c.respHeader.filter (fun kv => kv.1 != k)) with
      | some v => v
      | none => "") = v
    rw [lookup_filter_self, h]
  · rw [if_neg h]
    show (match List.lookup k ((k, v) :: c.respHeader.filter (fun kv => kv.1 != k)) with
      | some v => v
      | none => "") = v
    rw [lookup_cons_filter_self]

theorem Context.respGet_Header_ne (c : Context) (k k' v : String) (h : k' ≠ k) :
    (c.Header k v).respGet k' = c.respGet k' := by
  have h1 : (k' == k) = false := by simpa using h
  unfold Context.Header Context.respGet
  by_cases hv : v = ""
  · rw [if_pos hv]
    show (match List.lookup k' (c.respHeader.filter (fun kv => kv.1 != k)) with
      | some v => v
      | none => "") = _
    rw [lookup_filter_ne _ _ _ h]
  · rw [if_neg hv]
    show (match List.lookup k' ((k, v) :: c.respHeader.filter (fun kv => kv.1 != k)) with
      | some v => v
      | none => "") = _
    rw [List.lookup, h1, lookup_filter_ne _ _ _ h]

/-! ## Token Inspector -/

/-- C2 (as stated, refuted): a token whose expiry equals the current time is
classified not expired, with zero remaining time. -/
theorem isTokenExpired_expiry_eq_now_counterexample :
    isTokenExpired
        (fun _ => .ok ⟨.tokenClaims ⟨"u123", some 1000, none, none, "alice", "", false⟩⟩)
        1000 "header.payload.signature" = (false, 0)
      ∧ isTokenExpired
        (fun _ => .ok ⟨.tokenClaims ⟨"u123", some 1000, none, none, "alice", "", false⟩⟩)
        1000 "header.payload.signature" ≠ (true, 0) := by
  decide

/-- C2 (amended): for a parseable token with an expiry claim, the token is
classified expired, with result `(true, 0)`, exactly when the expiry is strictly
before the current time; at expiry equal to the current time the result is
`(false, 0)`. -/
theorem isTokenExpired_iff_expiry_lt_now (parseUnverified : String → Except String Token)
    (now : Time) (tokenString : String) (token : Token) (claims : TokenClaims) (expiry : Time)
    (hparse : parseUnverified tokenString = .ok token)
    (hclaims : token.Claims = .tokenClaims claims)
    (hexpiry : claims.ExpiresAt = some expiry) :
    ((isTokenExpired parseUnverified now tokenString).1 = true ↔ expiry < now)
      ∧ (expiry < now → isTokenExpired parseUnverified now tokenString = (true, 0))
      ∧ (expiry = now → isTokenExpired parseUnverified now tokenString = (false, 0)) := by
  unfold isTokenExpired
  simp only [hparse, hclaims, hexpiry, Time.Before]
  by_cases h : expiry < now
  · simp [h]
    exact ne_of_lt h
  · simp only [h, decide_False, Bool.false_eq_true, if_false, false_iff, not_false_eq_true,
      false_imp_iff, true_and]
    intro he
    subst he
    simp [Time.Sub, minDuration, maxDuration]

/-- Witness for C2 (amended), at a token that expired one nanosecond ago. -/
theorem isTokenExpired_iff_expiry_lt_now_witness :
    ((isTokenExpired
        (fun _ => .ok ⟨.tokenClaims ⟨"u123", some 999, none, none, "alice", "", false⟩⟩)
        1000 "header.payload.signature").1 = true ↔ (999 : Int) < 1000)
      ∧ ((999 : Int) < 1000 → isTokenExpired
        (fun _ => .ok ⟨.tokenClaims ⟨"u123", some 999, none, none, "alice", "", false⟩⟩)
        1000 "header.payload.signature" = (true, 0))
      ∧ ((999 : Int) = 1000 → isTokenExpired
        (fun _ => .ok ⟨.tokenClaims ⟨"u123", some 999, none, none, "alice", "", false⟩⟩)
        1000 "header.payload.signature" = (false, 0)) :=
  isTokenExpired_iff_expiry_lt_now _ 1000 "header.payload.signature"
    ⟨.tokenClaims ⟨"u123", some 999, none, none, "alice", "", false⟩⟩
    ⟨"u123", some 999, none, none, "alice", "", false⟩ 999 rfl rfl rfl

/-! ## Auth Decision Middleware -/

/-- C1 (as stated, refuted): a request whose token expired five minutes ago and
that carries no refresh token is answered by the userinfo call on the presented
token. When the provider rejects the token the response is 401 with error
`Invalid token` and no `refreshRequired` field; when the provider accepts it the
downstream handler runs. -/
theorem AuthMiddleware_expired_no_refresh_counterexample :
    (AuthMiddleware rejectingProvider (parseWithExpiry 0) (5 * Minute) []
        (requestWith [("Authorization", "Bearer tok")])).1.written
        = [(401, [("error", .str "Invalid token"),
                  ("errorDescription", .str "failed to get user info")])]
      ∧ (AuthMiddleware acceptingProvider (parseWithExpiry 0) (5 * Minute) []
        (requestWith [("Authorization", "Bearer tok")])).1.written = []
      ∧ (AuthMiddleware acceptingProvider (parseWithExpiry 0) (5 * Minute) []
        (requestWith [("Authorization", "Bearer tok")])).1.handlerRuns = 1 := by
  decide

/-- C1 (amended): for a request with a well-formed `Authorization` header, an
access token classified expired and no `X-Refresh-Token` header, the middleware
makes exactly one call to the provider, userinfo on the presented token. If it
fails, the response is 401 with error `Invalid token` and the error text, without
`refreshRequired`, the context is aborted and the handler does not run; if it
succeeds, the subject and the presented token are attached, nothing is written
and the handler runs. -/
theorem AuthMiddleware_expired_no_refresh (keycloak : KeycloakService)
    (parseUnverified : String → Except String Token) (now : Time) (calls : List Call)
    (c : Context) (accessToken : String)
    (hpresent : c.GetHeader "Authorization" ≠ "")
    (hbearer : strings.Split (c.GetHeader "Authorization") ' ' = ["Bearer", accessToken])
    (_hexpired : (isTokenExpired parseUnverified now accessToken).1 = true)
    (hnorefresh : c.GetHeader "X-Refresh-Token" = "") :
    (AuthMiddleware keycloak parseUnverified now calls c).2
        = calls ++ [Call.GetUserInfo accessToken]
      ∧ (∀ err, keycloak.GetUserInfo calls accessToken = .error err →
          (AuthMiddleware keycloak parseUnverified now calls c).1
            = { c with
                written := c.written ++
                  [(401, [("error", .str "Invalid token"), ("errorDescription", .str err)])]
                aborted := true })
      ∧ (∀ userInfo, keycloak.GetUserInfo calls accessToken = .ok userInfo →
          (AuthMiddleware keycloak parseUnverified now calls c).1
            = ((c.Set "userInfo" (.userInfo userInfo)).Set "accessToken" (.str accessToken)).Next
          ∧ (AuthMiddleware keycloak parseUnverified now calls c).1.written = c.written
          ∧ (AuthMiddleware keycloak parseUnverified now calls c).1.Get "userInfo"
              = some (.userInfo userInfo)
          ∧ (AuthMiddleware keycloak parseUnverified now calls c).1.Get "accessToken"
              = some (.str accessToken)
          ∧ (c.aborted = false →
              (AuthMiddleware keycloak parseUnverified now calls c).1.handlerRuns
                = c.handlerRuns + 1)) := by
  have hrun : AuthMiddleware keycloak parseUnverified now calls c
      = AuthMiddleware.resolvePresented keycloak accessToken calls c := by
    unfold AuthMiddleware
    simp [hpresent, hbearer, hnorefresh]
  rw [hrun]
  unfold AuthMiddleware.resolvePresented
  refine ⟨?_, ?_, ?_⟩
  · cases keycloak.GetUserInfo calls accessToken <;> rfl
  · intro err herr
    rw [herr]
    rfl
  · intro userInfo hok
    rw [hok]
    refine ⟨rfl, ?_, ?_, ?_, ?_⟩
    · simp only [Context.Next, Context.Set]
      split <;> rfl
    · rw [Context.Get_Next, Context.Get_Set_ne _ _ _ _ (by decide), Context.Get_Set_self]
    · rw [Context.Get_Next, Context.Get_Set_self]
    · intro hab
      simp [Context.Next, Context.Set, hab]

/-- Witness for C1 (amended): the token expired five minutes ago, no refresh
token is sent, and the provider rejects the token. -/
theorem AuthMiddleware_expired_no_refresh_witness :
    (AuthMiddleware rejectingProvider (parseWithExpiry 0) (5 * Minute) []
        (requestWith [("Authorization", "Bearer tok")])).2 = [] ++ [Call.GetUserInfo "tok"]
      ∧ (AuthMiddleware rejectingProvider (parseWithExpiry 0) (5 * Minute) []
        (requestWith [("Authorization", "Bearer tok")])).1
          = { requestWith [("Authorization", "Bearer tok")] with
              written := [] ++ [(401, [("error", .str "Invalid token"),
                ("errorDescription", .str "failed to get user info")])]
              aborted := true } :=
  have h := AuthMiddleware_expired_no_refresh rejectingProvider (parseWithExpiry 0)
    (5 * Minute) [] (requestWith [("Authorization", "Bearer tok")]) "tok"
    (by decide) (by decide) (by decide) (by decide)
  ⟨h.1, h.2.1 "failed to get user info" rfl⟩

/-- The refresh branch of `AuthMiddleware` ends in `afterFailedRefresh` when the
refresh sequence fails. -/
theorem AuthMiddleware_failed_refresh (keycloak : KeycloakService)
    (parseUnverified : String → Except String Token) (now : Time) (calls callsAfter : List Call)
    (c : Context) (accessToken : String)
    (hpresent : c.GetHeader "Authorization" ≠ "")
    (hbearer : strings.Split (c.GetHeader "Authorization") ' ' = ["Bearer", accessToken])
    (hpath : (isTokenExpired parseUnverified now accessToken).1 = true
      ∨ (isTokenExpired parseUnverified now accessToken).2 < 2 * Minute)
    (hrefresh : c.GetHeader "X-Refresh-Token" ≠ "")
    (hfail : RefreshSequenceFails keycloak calls (c.GetHeader "X-Refresh-Token") callsAfter) :
    AuthMiddleware keycloak parseUnverified now calls c
      = AuthMiddleware.afterFailedRefresh keycloak accessToken
          (isTokenExpired parseUnverified now accessToken).1 callsAfter c := by
  unfold AuthMiddleware
  rcases hfail with ⟨err, herr, hcalls⟩ | ⟨newTokens, err, hok, herr, hcalls⟩
  · simp [hpresent, hbearer, hrefresh, hpath, herr, hcalls]
  · simp [hpresent, hbearer, hrefresh, hpath, hok, herr, hcalls]

/-- C5: for a request with a well-formed bearer header, an access token
classified expired and a non-empty refresh token, when the refresh call fails, or
succeeds and the userinfo call on the new access token fails, the middleware
writes 401 with error `Token expired` and `refreshRequired = true` and aborts;
nothing is attached to the context, the handler does not run, and the provider
receives no call besides those of the failed sequence (so none at line 71, on the
presented token). -/
theorem AuthMiddleware_expired_refresh_fails (keycloak : KeycloakService)
    (parseUnverified : String → Except String Token) (now : Time) (calls callsAfter : List Call)
    (c : Context) (accessToken : String)
    (hpresent : c.GetHeader "Authorization" ≠ "")
    (hbearer : strings.Split (c.GetHeader "Authorization") ' ' = ["Bearer", accessToken])
    (hexpired : (isTokenExpired parseUnverified now accessToken).1 = true)
    (hrefresh : c.GetHeader "X-Refresh-Token" ≠ "")
    (hfail : RefreshSequenceFails keycloak calls (c.GetHeader "X-Refresh-Token") callsAfter) :
    AuthMiddleware keycloak parseUnverified now calls c
      = ({ c with
            written := c.written ++
              [(401, [("error", .str "Token expired"), ("refreshRequired", .bool true),
                      ("errorDescription", .str "Please login again")])]
            aborted := true },
          callsAfter) := by
  rw [AuthMiddleware_failed_refresh keycloak parseUnverified now calls callsAfter c accessToken
    hpresent hbearer (Or.inl hexpired) hrefresh hfail, hexpired]
  rfl

/-- Witness for C5: the token expired five minutes ago, the refresh succeeds and
the userinfo call on the new access token fails. -/
theorem AuthMiddleware_expired_refresh_fails_witness :
    AuthMiddleware refreshOnlyProvider (parseWithExpiry 0) (5 * Minute) []
        (requestWith [("Authorization", "Bearer tok"), ("X-Refresh-Token", "rt")])
      = ({ requestWith [("Authorization", "Bearer tok"), ("X-Refresh-Token", "rt")] with
            written := [] ++
              [(401, [("error", .str "Token expired"), ("refreshRequired", .bool true),
                      ("errorDescription", .str "Please login again")])]
            aborted := true },
          [Call.RefreshToken "rt", Call.GetUserInfo "newAccess"]) :=
  AuthMiddleware_expired_refresh_fails refreshOnlyProvider (parseWithExpiry 0) (5 * Minute) []
    [Call.RefreshToken "rt", Call.GetUserInfo "newAccess"]
    (requestWith [("Authorization", "Bearer tok"), ("X-Refresh-Token", "rt")]) "tok"
    (by decide) (by decide) (by decide) (by decide)
    (Or.inr ⟨⟨"newAccess", 300, 1800, "newRefresh", "Bearer", "", "", ""⟩,
      "failed to get user info", rfl, rfl, rfl⟩)

theorem Context.GetHeader_withoutHeader_self (c : Context) (k : String) :
    (c.withoutHeader k).GetHeader k = "" := by
  show (match List.lookup k (c.reqHeader.filter (fun kv => kv.1 != k)) with
    | some v => v
    | none => "") = ""
  rw [lookup_filter_self]

theorem Context.GetHeader_withoutHeader_ne (c : Context) (k k' : String) (h : k' ≠ k) :
    (c.withoutHeader k).GetHeader k' = c.GetHeader k' := by
  show (match List.lookup k' (c.reqHeader.filter (fun kv => kv.1 != k)) with
    | some v => v
    | none => "") = _
  rw [lookup_filter_ne _ _ _ h]
  rfl

theorem AuthMiddleware.resolvePresented_withoutHeader (keycloak : KeycloakService)
    (accessToken : String) (calls : List Call) (c : Context) (k : String) :
    (AuthMiddleware.resolvePresented keycloak accessToken calls (c.withoutHeader k)).2
        = (AuthMiddleware.resolvePresented keycloak accessToken calls c).2
      ∧ (AuthMiddleware.resolvePresented keycloak accessToken calls (c.withoutHeader k)).1.outcome
        = (AuthMiddleware.resolvePresented keycloak accessToken calls c).1.outcome := by
  unfold AuthMiddleware.resolvePresented
  cases keycloak.GetUserInfo calls accessToken with
  | error err => exact ⟨rfl, rfl⟩
  | ok userInfo =>
    refine ⟨rfl, ?_⟩
    cases hab : c.aborted <;>
      simp [Context.outcome, Context.Next, Context.Set, Context.withoutHeader, hab]

/-- Without a refresh token the middleware goes to line 71 whatever the
classification of the token. -/
theorem AuthMiddleware_no_refresh_token (keycloak : KeycloakService)
    (parseUnverified : String → Except String Token) (now : Time) (calls : List Call)
    (c : Context) (accessToken : String)
    (hpresent : c.GetHeader "Authorization" ≠ "")
    (hbearer : strings.Split (c.GetHeader "Authorization") ' ' = ["Bearer", accessToken])
    (hnorefresh : c.GetHeader "X-Refresh-Token" = "") :
    AuthMiddleware keycloak parseUnverified now calls c
      = AuthMiddleware.resolvePresented keycloak accessToken calls c := by
  unfold AuthMiddleware
  simp [hpresent, hbearer, hnorefresh]

theorem Context.lookup_Header_self (c : Context) (k v : String) :
    (c.Header k v).respHeader.lookup k = if v = "" then none else some v := by
  unfold Context.Header
  by_cases h : v = ""
  · rw [if_pos h, if_pos h]
    exact lookup_filter_self _ _
  · rw [if_neg h, if_neg h]
    exact lookup_cons_filter_self _ _ _

theorem Context.lookup_Header_ne (c : Context) (k k' v : String) (h : k' ≠ k) :
    (c.Header k v).respHeader.lookup k' = c.respHeader.lookup k' := by
  have h1 : (k' == k) = false := by simpa using h
  unfold Context.Header
  by_cases hv : v = ""
  · rw [if_pos hv]
    exact lookup_filter_ne _ _ _ h
  · rw [if_neg hv]
    show List.lookup k' ((k, v) :: c.respHeader.filter (fun kv => kv.1 != k)) = _
    rw [List.lookup, h1, lookup_filter_ne _ _ _ h]

/-- C6: for a request whose access token is classified valid with less than two
minutes remaining and which carries a refresh token, when the refresh sequence
fails the request is not rejected for it: after the calls of the failed sequence
the middleware makes one more call, userinfo on the presented access token, and
sets no response header. If that call fails, the response is 401 with error
`Invalid token` and the error text, the context is aborted, nothing is attached
and the handler does not run; if it succeeds, the resolved subject and the
presented access token are attached (no refresh token), nothing is written and
the handler runs. The calls after the failed sequence and the outcome are those
of the same request sent without the refresh token to the provider as the failed
sequence left it; when the provider answers the userinfo call on the presented
token as it would have before the failed sequence, the outcome is that of the
same request sent without a refresh token in its place. -/
theorem AuthMiddleware_valid_refresh_fails (keycloak : KeycloakService)
    (parseUnverified : String → Except String Token) (now : Time) (calls callsAfter : List Call)
    (c : Context) (accessToken : String)
    (hpresent : c.GetHeader "Authorization" ≠ "")
    (hbearer : strings.Split (c.GetHeader "Authorization") ' ' = ["Bearer", accessToken])
    (hvalid : (isTokenExpired parseUnverified now accessToken).1 = false)
    (hsoon : (isTokenExpired parseUnverified now accessToken).2 < 2 * Minute)
    (hrefresh : c.GetHeader "X-Refresh-Token" ≠ "")
    (hfail : RefreshSequenceFails keycloak calls (c.GetHeader "X-Refresh-Token") callsAfter) :
    (AuthMiddleware keycloak parseUnverified now calls c).2
        = callsAfter ++ [Call.GetUserInfo accessToken]
      ∧ (AuthMiddleware keycloak parseUnverified now calls c).1.respHeader = c.respHeader
      ∧ (∀ err, keycloak.GetUserInfo callsAfter accessToken = .error err →
          (AuthMiddleware keycloak parseUnverified now calls c).1
            = { c with
                written := c.written ++
                  [(401, [("error", .str "Invalid token"), ("errorDescription", .str err)])]
                aborted := true })
      ∧ (∀ userInfo, keycloak.GetUserInfo callsAfter accessToken = .ok userInfo →
          (AuthMiddleware keycloak parseUnverified now calls c).1.Get "userInfo"
              = some (.userInfo userInfo)
          ∧ (AuthMiddleware keycloak parseUnverified now calls c).1.Get "accessToken"
              = some (.str accessToken)
          ∧ (AuthMiddleware keycloak parseUnverified now calls c).1.Get "refreshToken"
              = c.Get "refreshToken"
          ∧ (AuthMiddleware keycloak parseUnverified now calls c).1.written = c.written
          ∧ (AuthMiddleware keycloak parseUnverified now calls c).1.aborted = c.aborted
          ∧ (c.aborted = false →
              (AuthMiddleware keycloak parseUnverified now calls c).1.handlerRuns
                = c.handlerRuns + 1))
      ∧ AuthMiddleware keycloak parseUnverified now calls c
        = AuthMiddleware.resolvePresented keycloak accessToken callsAfter c
      ∧ (AuthMiddleware keycloak parseUnverified now callsAfter
            (c.withoutHeader "X-Refresh-Token")).2
          = (AuthMiddleware keycloak parseUnverified now calls c).2
      ∧ (AuthMiddleware keycloak parseUnverified now callsAfter
            (c.withoutHeader "X-Refresh-Token")).1.outcome
          = (AuthMiddleware keycloak parseUnverified now calls c).1.outcome
      ∧ (keycloak.GetUserInfo callsAfter accessToken = keycloak.GetUserInfo calls accessToken →
          (AuthMiddleware keycloak parseUnverified now calls
              (c.withoutHeader "X-Refresh-Token")).1.outcome
            = (AuthMiddleware keycloak parseUnverified now calls c).1.outcome) := by
  have hrun : AuthMiddleware keycloak parseUnverified now calls c
      = AuthMiddleware.resolvePresented keycloak accessToken callsAfter c := by
    rw [AuthMiddleware_failed_refresh keycloak parseUnverified now calls callsAfter c accessToken
      hpresent hbearer (Or.inr hsoon) hrefresh hfail, hvalid]
    rfl
  have hauth : (c.withoutHeader "X-Refresh-Token").GetHeader "Authorization"
      = c.GetHeader "Authorization" :=
    Context.GetHeader_withoutHeader_ne c _ _ (by decide)
  have hwithout : ∀ calls0, AuthMiddleware keycloak parseUnverified now calls0
        (c.withoutHeader "X-Refresh-Token")
      = AuthMiddleware.resolvePresented keycloak accessToken calls0
          (c.withoutHeader "X-Refresh-Token") := fun calls0 =>
    AuthMiddleware_no_refresh_token keycloak parseUnverified now calls0 _ accessToken
      (by rw [hauth]; exact hpresent) (by rw [hauth]; exact hbearer)
      (Context.GetHeader_withoutHeader_self c _)
  have hsame := AuthMiddleware.resolvePresented_withoutHeader keycloak accessToken callsAfter c
    "X-Refresh-Token"
  refine ⟨?_, ?_, ?_, ?_, hrun, ?_, ?_, ?_⟩
  · rw [hrun]
    unfold AuthMiddleware.resolvePresented
    cases keycloak.GetUserInfo callsAfter accessToken <;> rfl
  · rw [hrun]
    unfold AuthMiddleware.resolvePresented
    cases keycloak.GetUserInfo callsAfter accessToken with
    | error err => rfl
    | ok userInfo => rw [Context.respHeader_Next]; rfl
  · intro err herr
    rw [hrun]
    unfold AuthMiddleware.resolvePresented
    rw [herr]
    rfl
  · intro userInfo hok
    rw [hrun]
    unfold AuthMiddleware.resolvePresented
    rw [hok]
    refine ⟨?_, ?_, ?_, ?_, ?_, ?_⟩
    · rw [Context.Get_Next, Context.Get_Set_ne _ _ _ _ (by decide), Context.Get_Set_self]
    · rw [Context.Get_Next, Context.Get_Set_self]
    · rw [Context.Get_Next, Context.Get_Set_ne _ _ _ _ (by decide),
        Context.Get_Set_ne _ _ _ _ (by decide)]
    · rw [Context.written_Next]
      rfl
    · rw [Context.aborted_Next]
      rfl
    · intro hab
      simp [Context.Next, Context.Set, hab]
  · rw [hwithout, hrun]
    exact hsame.1
  · rw [hwithout, hrun]
    exact hsame.2
  · intro hanswer
    rw [hwithout, hrun]
    have hsame0 := (AuthMiddleware.resolvePresented_withoutHeader keycloak accessToken calls c
      "X-Refresh-Token").2
    rw [hsame0]
    unfold AuthMiddleware.resolvePresented
    rw [hanswer]
    cases keycloak.GetUserInfo calls accessToken <;> rfl

/-- Witness for C6: the token has one minute left, the refresh fails, and the
provider accepts the presented token. -/
theorem AuthMiddleware_valid_refresh_fails_witness :
    (AuthMiddleware acceptingProvider (parseWithExpiry (6 * Minute)) (5 * Minute) []
        (requestWith [("Authorization", "Bearer tok"), ("X-Refresh-Token", "rt")])).2
        = [Call.RefreshToken "rt"] ++ [Call.GetUserInfo "tok"]
      ∧ (AuthMiddleware acceptingProvider (parseWithExpiry (6 * Minute)) (5 * Minute) []
        (requestWith [("Authorization", "Bearer tok"), ("X-Refresh-Token", "rt")])).1.Get
          "userInfo" = some (.userInfo ⟨"u123", true, "alice@example.com", "Alice", "A"⟩)
      ∧ (AuthMiddleware acceptingProvider (parseWithExpiry (6 * Minute)) (5 * Minute) []
        (requestWith [("Authorization", "Bearer tok"), ("X-Refresh-Token", "rt")])).1.Get
          "accessToken" = some (.str "tok")
      ∧ (AuthMiddleware acceptingProvider (parseWithExpiry (6 * Minute)) (5 * Minute) []
        (requestWith [("Authorization", "Bearer tok"), ("X-Refresh-Token", "rt")])).1.handlerRuns
          = 0 + 1
      ∧ (AuthMiddleware acceptingProvider (parseWithExpiry (6 * Minute)) (5 * Minute)
            [Call.RefreshToken "rt"]
            ((requestWith [("Authorization", "Bearer tok"), ("X-Refresh-Token", "rt")]).withoutHeader
              "X-Refresh-Token")).1.outcome
        = (AuthMiddleware acceptingProvider (parseWithExpiry (6 * Minute)) (5 * Minute) []
            (requestWith [("Authorization", "Bearer tok"), ("X-Refresh-Token", "rt")])).1.outcome :=
  have h := AuthMiddleware_valid_refresh_fails acceptingProvider (parseWithExpiry (6 * Minute))
    (5 * Minute) [] [Call.RefreshToken "rt"]
    (requestWith [("Authorization", "Bearer tok"), ("X-Refresh-Token", "rt")]) "tok"
    (by decide) (by decide) (by decide) (by decide) (by decide)
    (Or.inl ⟨"keycloak refresh failed", rfl, rfl⟩)
  have hok := h.2.2.2.1 ⟨"u123", true, "alice@example.com", "Alice", "A"⟩ rfl
  ⟨h.1, hok.1, hok.2.1, hok.2.2.2.2.2 rfl, h.2.2.2.2.2.2.1⟩

/-- C7 (as stated, refuted): when the provider rotates the access token and
returns an empty refresh token, the refresh and the userinfo call succeed and the
handler runs with `X-Token-Refreshed` set to `true`, yet the response carries no
`X-New-Refresh-Token` header. -/
theorem AuthMiddleware_refresh_succeeds_counterexample :
    (AuthMiddleware accessOnlyProvider (parseWithExpiry 0) (5 * Minute) []
        (requestWith [("Authorization", "Bearer tok"), ("X-Refresh-Token", "rt")])).1.respHeader.lookup
          "X-New-Refresh-Token" = none
      ∧ (AuthMiddleware accessOnlyProvider (parseWithExpiry 0) (5 * Minute) []
        (requestWith [("Authorization", "Bearer tok"), ("X-Refresh-Token", "rt")])).1.respHeader.lookup
          "X-Token-Refreshed" = some "true"
      ∧ (AuthMiddleware accessOnlyProvider (parseWithExpiry 0) (5 * Minute) []
        (requestWith [("Authorization", "Bearer tok"), ("X-Refresh-Token", "rt")])).1.handlerRuns
          = 1
      ∧ (AuthMiddleware accessOnlyProvider (parseWithExpiry 0) (5 * Minute) []
        (requestWith [("Authorization", "Bearer tok"), ("X-Refresh-Token", "rt")])).2
          = [Call.RefreshToken "rt", Call.GetUserInfo "newAccess"] := by
  decide

/-- C7 (amended): when the refresh path is taken (token expired or less than two
minutes remaining, refresh token present, context not aborted) and both the
refresh call and the userinfo call on the new access token succeed, the context
holds the subject resolved from the new access token under `userInfo`, the new
access token under `accessToken` and the new refresh token under `refreshToken`.
The response carries `X-Token-Refreshed` with value `true`, and it carries
`X-New-Access-Token` and `X-New-Refresh-Token` with the new tokens as values when
these are non-empty; a new token that is empty leaves the response without its
header. Nothing is written, the context is not aborted, the downstream handler
runs once, and the provider receives exactly the refresh call and the userinfo
call on the new access token. -/
theorem AuthMiddleware_refresh_succeeds (keycloak : KeycloakService)
    (parseUnverified : String → Except String Token) (now : Time) (calls : List Call)
    (c : Context) (accessToken : String) (newTokens : TokenResponse) (userInfo : UserInfo)
    (hpresent : c.GetHeader "Authorization" ≠ "")
    (hbearer : strings.Split (c.GetHeader "Authorization") ' ' = ["Bearer", accessToken])
    (hpath : (isTokenExpired parseUnverified now accessToken).1 = true
      ∨ (isTokenExpired parseUnverified now accessToken).2 < 2 * Minute)
    (hrefresh : c.GetHeader "X-Refresh-Token" ≠ "")
    (hlive : c.aborted = false)
    (hok : keycloak.RefreshToken calls (c.GetHeader "X-Refresh-Token") = .ok newTokens)
    (huser : keycloak.GetUserInfo (calls ++ [Call.RefreshToken (c.GetHeader "X-Refresh-Token")])
      newTokens.AccessToken = .ok userInfo) :
    (AuthMiddleware keycloak parseUnverified now calls c).1.Get "userInfo"
        = some (.userInfo userInfo)
      ∧ (AuthMiddleware keycloak parseUnverified now calls c).1.Get "accessToken"
        = some (.str newTokens.AccessToken)
      ∧ (AuthMiddleware keycloak parseUnverified now calls c).1.Get "refreshToken"
        = some (.str newTokens.RefreshToken)
      ∧ (AuthMiddleware keycloak parseUnverified now calls c).1.respHeader.lookup
          "X-New-Access-Token"
        = (if newTokens.AccessToken = "" then none else some newTokens.AccessToken)
      ∧ (AuthMiddleware keycloak parseUnverified now calls c).1.respHeader.lookup
          "X-New-Refresh-Token"
        = (if newTokens.RefreshToken = "" then none else some newTokens.RefreshToken)
      ∧ (AuthMiddleware keycloak parseUnverified now calls c).1.respHeader.lookup
          "X-Token-Refreshed" = some "true"
      ∧ (AuthMiddleware keycloak parseUnverified now calls c).1.written = c.written
      ∧ (AuthMiddleware keycloak parseUnverified now calls c).1.aborted = false
      ∧ (AuthMiddleware keycloak parseUnverified now calls c).1.handlerRuns = c.handlerRuns + 1
      ∧ (AuthMiddleware keycloak parseUnverified now calls c).2
        = calls ++ [Call.RefreshToken (c.GetHeader "X-Refresh-Token"),
            Call.GetUserInfo newTokens.AccessToken] := by
  have hrun : AuthMiddleware keycloak parseUnverified now calls c
      = ((((((((c.Set "userInfo" (.userInfo userInfo)).Set "accessToken"
          (.str newTokens.AccessToken)).Set "refreshToken"
          (.str newTokens.RefreshToken)).Header "X-New-Access-Token"
          newTokens.AccessToken).Header "X-New-Refresh-Token"
          newTokens.RefreshToken).Header "X-Token-Refreshed" "true").Header "X-Token-Expires-In"
          (stringOfRune (rune newTokens.ExpiresIn))).Next,
        calls ++ [Call.RefreshToken (c.GetHeader "X-Refresh-Token"),
          Call.GetUserInfo newTokens.AccessToken]) := by
    unfold AuthMiddleware
    simp [hpresent, hbearer, hrefresh, hpath, hok, huser]
  rw [hrun]
  refine ⟨?_, ?_, ?_, ?_, ?_, ?_, ?_, ?_, ?_, rfl⟩
  · simp only [Context.Get_Next, Context.Get_Header]
    rw [Context.Get_Set_ne _ _ _ _ (by decide), Context.Get_Set_ne _ _ _ _ (by decide),
      Context.Get_Set_self]
  · simp only [Context.Get_Next, Context.Get_Header]
    rw [Context.Get_Set_ne _ _ _ _ (by decide), Context.Get_Set_self]
  · simp only [Context.Get_Next, Context.Get_Header]
    rw [Context.Get_Set_self]
  · rw [Context.respHeader_Next, Context.lookup_Header_ne _ _ _ _ (by decide),
      Context.lookup_Header_ne _ _ _ _ (by decide),
      Context.lookup_Header_ne _ _ _ _ (by decide), Context.lookup_Header_self]
  · rw [Context.respHeader_Next, Context.lookup_Header_ne _ _ _ _ (by decide),
      Context.lookup_Header_ne _ _ _ _ (by decide), Context.lookup_Header_self]
  · rw [Context.respHeader_Next, Context.lookup_Header_ne _ _ _ _ (by decide),
      Context.lookup_Header_self]
    rfl
  · simp only [Context.written_Next, Context.written_Header]
    rfl
  · simp only [Context.aborted_Next, Context.aborted_Header]
    exact hlive
  · have hab : (((((((c.Set "userInfo" (.userInfo userInfo)).Set "accessToken"
          (.str newTokens.AccessToken)).Set "refreshToken"
          (.str newTokens.RefreshToken)).Header "X-New-Access-Token"
          newTokens.AccessToken).Header "X-New-Refresh-Token"
          newTokens.RefreshToken).Header "X-Token-Refreshed" "true").Header "X-Token-Expires-In"
          (stringOfRune (rune newTokens.ExpiresIn))).aborted = false := by
      simp only [Context.aborted_Header]
      exact hlive
    simp only [Context.Next, hab, Bool.false_eq_true, if_false, Context.handlerRuns_Header]
    rfl

/-- Witness for C7 (amended): the token expired five minutes ago and the
provider rotates both tokens. -/
theorem AuthMiddleware_refresh_succeeds_witness :
    (AuthMiddleware rotatingProvider (parseWithExpiry 0) (5 * Minute) []
        (requestWith [("Authorization", "Bearer tok"), ("X-Refresh-Token", "rt")])).1.Get
          "accessToken" = some (.str "newAccess")
      ∧ (AuthMiddleware rotatingProvider (parseWithExpiry 0) (5 * Minute) []
        (requestWith [("Authorization", "Bearer tok"), ("X-Refresh-Token", "rt")])).1.respHeader.lookup
          "X-New-Refresh-Token" = (if ("newRefresh" : String) = "" then none else some "newRefresh")
      ∧ (AuthMiddleware rotatingProvider (parseWithExpiry 0) (5 * Minute) []
        (requestWith [("Authorization", "Bearer tok"), ("X-Refresh-Token", "rt")])).1.handlerRuns
          = 0 + 1 :=
  have h := AuthMiddleware_refresh_succeeds rotatingProvider (parseWithExpiry 0) (5 * Minute) []
    (requestWith [("Authorization", "Bearer tok"), ("X-Refresh-Token", "rt")]) "tok"
    ⟨"newAccess", 300, 1800, "newRefresh", "Bearer", "", "", ""⟩
    ⟨"u123", true, "alice@example.com", "Alice", "A"⟩
    (by decide) (by decide) (by decide) (by decide) rfl rfl rfl
  ⟨h.2.1, h.2.2.2.2.1, h.2.2.2.2.2.2.2.2.1⟩

/-- C9: for a request whose `Authorization` header is empty, or does not split at
single spaces into exactly two parts of which the first is `Bearer`, the
middleware writes a 401 response with one `error` message and aborts, and does
nothing else: the provider receives no call, nothing is attached to the context,
no response header is set and the downstream handler does not run. -/
theorem AuthMiddleware_missing_or_malformed (keycloak : KeycloakService)
    (parseUnverified : String → Except String Token) (now : Time) (calls : List Call)
    (c : Context)
    (hbad : c.GetHeader "Authorization" = ""
      ∨ ¬ ((strings.Split (c.GetHeader "Authorization") ' ').length = 2
          ∧ (strings.Split (c.GetHeader "Authorization") ' ').getD 0 "" = "Bearer")) :
    ∃ message : String,
      AuthMiddleware keycloak parseUnverified now calls c
        = ({ c with
              written := c.written ++ [(401, [("error", .str message)])]
              aborted := true },
            calls) := by
  unfold AuthMiddleware
  by_cases hempty : c.GetHeader "Authorization" = ""
  · exact ⟨"Authorization header required", by simp [hempty]; rfl⟩
  · have hmal : ¬ ((strings.Split (c.GetHeader "Authorization") ' ').length = 2
        ∧ (strings.Split (c.GetHeader "Authorization") ' ').getD 0 "" = "Bearer") := by
      rcases hbad with h | h
      · exact absurd h hempty
      · exact h
    have hcond : (strings.Split (c.GetHeader "Authorization") ' ').length ≠ 2
        ∨ (strings.Split (c.GetHeader "Authorization") ' ').getD 0 "" ≠ "Bearer" := by
      by_cases hlen : (strings.Split (c.GetHeader "Authorization") ' ').length = 2
      · exact Or.inr (fun h => hmal ⟨hlen, h⟩)
      · exact Or.inl hlen
    refine ⟨"Invalid authorization header format", ?_⟩
    simp only [hempty, if_false]
    rw [if_pos hcond]
    rfl

/-- Witness for C9: a bearer header with two spaces between the scheme and the
token splits into three parts. -/
theorem AuthMiddleware_missing_or_malformed_witness :
    ∃ message : String,
      AuthMiddleware rotatingProvider (parseWithExpiry (60 * Minute)) (5 * Minute) []
          (requestWith [("Authorization", "Bearer  tok"), ("X-Refresh-Token", "rt")])
        = ({ requestWith [("Authorization", "Bearer  tok"), ("X-Refresh-Token", "rt")] with
              written := [] ++ [(401, [("error", .str message)])]
              aborted := true },
            []) :=
  AuthMiddleware_missing_or_malformed rotatingProvider (parseWithExpiry (60 * Minute))
    (5 * Minute) [] (requestWith [("Authorization", "Bearer  tok"), ("X-Refresh-Token", "rt")])
    (Or.inr (by decide))

/-! ## Object Namespace Facade: the listing loop -/

theorem pageSize_pos (limit count : Int) : 1 ≤ pageSize limit count := by
  unfold pageSize
  omega

theorem pageSize_stop (limit count : Int) (h : count + 1 ≥ limit) : pageSize limit count = 1 := by
  unfold pageSize
  omega

theorem pageSize_step (limit count : Int) (h : ¬ count + 1 ≥ limit) :
    pageSize limit count = pageSize limit (count + 1) + 1 := by
  unfold pageSize
  omega

/-- The loop of `ListFiles` on a channel without error items: it appends the
first `pageSize limit count` items and returns the key of the last of them as
cursor when there are that many, the empty cursor otherwise. -/
theorem MinioService.ListFiles.loop_eq (pfx : String) (limit : Int) (ch : List ObjectInfo) :
    (∀ o ∈ ch, o.Err = none) → ∀ (files : List FileMetadata) (count : Int),
    MinioService.ListFiles.loop pfx limit ch files count
      = .ok (files ++ (ch.take (pageSize limit count)).map (ObjectInfo.toFile pfx),
          ((ch[pageSize limit count - 1]?).map (fun o => o.Key)).getD "") := by
  induction ch with
  | nil =>
    intro _ files count
    simp [MinioService.ListFiles.loop]
  | cons object rest ih =>
    intro herr files count
    have hobj : object.Err = none := herr object (List.mem_cons_self _ _)
    have hrest : ∀ o ∈ rest, o.Err = none := fun o ho => herr o (List.mem_cons_of_mem _ ho)
    unfold MinioService.ListFiles.loop
    rw [hobj]
    by_cases hstop : count + 1 ≥ limit
    · simp [hstop, pageSize_stop limit count hstop, ObjectInfo.toFile]
    · simp only [hstop, if_false]
      rw [ih hrest, pageSize_step limit count hstop]
      have hpos := pageSize_pos limit (count + 1)
      obtain ⟨m, hm⟩ : ∃ m, pageSize limit (count + 1) = m + 1 := ⟨_, (Nat.sub_add_cancel hpos).symm⟩
      simp [hm, ObjectInfo.toFile]

theorem Client.ListObjects_no_error (bucket : Bucket) (opts : ListObjectsOptions) :
    ∀ o ∈ Client.ListObjects bucket opts, o.Err = none := by
  intro o ho
  unfold Client.ListObjects at ho
  obtain ⟨x, _, hx⟩ := List.mem_map.mp ho
  rw [← hx]
  rfl

/-- `ListFiles` returns the first `pageSize limit 0` items of the channel and the
key of the last of them, if there are that many, as cursor. -/
theorem MinioService.ListFiles_eq (s : MinioService) (userID : String) (limit : Int)
    (offset : String) :
    s.ListFiles userID limit offset
      = .ok (((Client.ListObjects s.client
                { Prefix := sprintfDir userID, Recursive := true, MaxKeys := limit,
                  StartAfter := offset }).take (pageSize limit 0)).map
              (ObjectInfo.toFile (sprintfDir userID)),
          (((Client.ListObjects s.client
                { Prefix := sprintfDir userID, Recursive := true, MaxKeys := limit,
                  StartAfter := offset })[pageSize limit 0 - 1]?).map (fun o => o.Key)).getD
            "") := by
  have hopts : (if offset ≠ "" then
        ({ ({ Prefix := sprintfDir userID, Recursive := true, MaxKeys := limit,
              StartAfter := "" } : ListObjectsOptions) with StartAfter := offset })
      else { Prefix := sprintfDir userID, Recursive := true, MaxKeys := limit, StartAfter := "" })
      = ({ Prefix := sprintfDir userID, Recursive := true, MaxKeys := limit,
           StartAfter := offset } : ListObjectsOptions) := by
    by_cases h : offset = ""
    · simp [h]
    · simp [h]
  unfold MinioService.ListFiles
  simp only [hopts]
  rw [MinioService.ListFiles.loop_eq _ _ _ (Client.ListObjects_no_error _ _)]
  simp

theorem getLast?_take_of_getElem? {α : Type} (l : List α) (n : Nat) (x : α) (hn : 1 ≤ n)
    (hx : l[n - 1]? = some x) : (l.take n).getLast? = some x := by
  have hlt : n - 1 < l.length := by
    rcases List.getElem?_eq_some_iff.mp hx with ⟨h, _⟩
    exact h
  have hlen : (l.take n).length = n := by
    rw [List.length_take]
    omega
  rw [List.getLast?_eq_getElem?, hlen, List.getElem?_take_of_lt (by omega)]
  exact hx

/-- C10 (as stated, refuted): with limit 0 the facade returns one item, more than
the limit, and a non-empty cursor. -/
theorem ListFiles_limit_zero_counterexample :
    reportBucket.ListFiles "u123" 0 "" = .ok ([reportFile], "u123/report.pdf")
      ∧ ¬ (([reportFile].length : Int) ≤ 0) :=
  ⟨rfl, by decide⟩

/-- C10 (amended): for every limit `N` and every bucket, cursor and subject,
`ListFiles` returns a list of at most `max 1 N` items (at most `N` for `N ≥ 1`,
at most one for `N ≤ 0`); the next cursor is non-empty only if exactly `max 1 N`
items were returned, and then it is the storage key of the last returned item. -/
theorem ListFiles_at_most_limit (s : MinioService) (userID : String) (N : Int) (offset : String) :
    ∃ files nextCursor, s.ListFiles userID N offset = .ok (files, nextCursor)
      ∧ (files.length : Int) ≤ max 1 N
      ∧ (1 ≤ N → (files.length : Int) ≤ N)
      ∧ (nextCursor ≠ "" →
          (files.length : Int) = max 1 N
            ∧ files.getLast?.map (fun f => f.Key) = some nextCursor) := by
  refine ⟨_, _, MinioService.ListFiles_eq s userID N offset, ?_, ?_, ?_⟩
  · rw [List.length_map, List.length_take]
    unfold pageSize
    omega
  · intro hN
    rw [List.length_map, List.length_take]
    unfold pageSize
    omega
  · intro hcursor
    have hpos := pageSize_pos N 0
    cases hget : (Client.ListObjects s.client
        { Prefix := sprintfDir userID, Recursive := true, MaxKeys := N,
          StartAfter := offset })[pageSize N 0 - 1]? with
    | none => rw [hget] at hcursor; exact absurd rfl hcursor
    | some o =>
      have hlt := (List.getElem?_eq_some_iff.mp hget).1
      refine ⟨?_, ?_⟩
      · rw [List.length_map, List.length_take]
        unfold pageSize at hlt hpos ⊢
        omega
      · rw [List.getLast?_map, getLast?_take_of_getElem? _ _ o hpos hget]
        rfl

theorem Client.ListObjects_no_cursor (bucket : Bucket) (pfx : String) (limit : Int) :
    Client.ListObjects bucket
        { Prefix := pfx, Recursive := true, MaxKeys := limit, StartAfter := "" }
      = (bucket.filter (fun o => strings.HasPrefix o.Key pfx)).map Object.info := by
  unfold Client.ListObjects
  simp

theorem MinioService.subjectFiles_eq (s : MinioService) (userID : String) (limit : Int) :
    s.subjectFiles userID
      = (Client.ListObjects s.client
          { Prefix := sprintfDir userID, Recursive := true, MaxKeys := limit,
            StartAfter := "" }).map (ObjectInfo.toFile (sprintfDir userID)) := by
  rw [Client.ListObjects_no_cursor]
  rfl

theorem key_ne_empty_of_HasPrefix (key userID : String)
    (h : strings.HasPrefix key (sprintfDir userID) = true) : key ≠ "" := by
  intro hkey
  subst hkey
  unfold strings.HasPrefix sprintfDir at h
  rw [String.data_append] at h
  have hp := List.isPrefixOf_iff_prefix.mp h
  have hnil : userID.data ++ "/".data = [] := List.prefix_nil.mp hp
  have hlen := congrArg List.length hnil
  simp at hlen

theorem Client.ListObjects_key_ne_empty (bucket : Bucket) (userID : String)
    (opts : ListObjectsOptions) (hopts : opts.Prefix = sprintfDir userID) (o : ObjectInfo)
    (ho : o ∈ Client.ListObjects bucket opts) : o.Key ≠ "" := by
  unfold Client.ListObjects at ho
  obtain ⟨x, hx, hxo⟩ := List.mem_map.mp ho
  have hfil := (List.mem_filter.mp hx).2
  rw [Bool.and_eq_true, hopts] at hfil
  rw [← hxo]
  exact key_ne_empty_of_HasPrefix x.Key userID hfil.1

/-- C3 (as stated, refuted): after `report.pdf` is uploaded as subject `u123`,
the listing for `u123` with `limit=1` returns that file with `hasMore` true and
the key of the file as next cursor. -/
theorem FileHandler_ListFiles_single_file_counterexample :
    FileHandler.ListFiles reportBucket (listRequest "1")
      = some ((listRequest "1").JSON 200
          [("files", .files [reportFile]), ("nextCursor", .str "u123/report.pdf"),
           ("hasMore", .bool true)]) := by
  decide

/-- C3 (amended): for a subject whose namespace holds exactly `N` objects,
`1 ≤ N ≤ 100`, listing with `limit = N` and no cursor returns exactly those `N`
files, and the response of the handler has `hasMore` true and `nextCursor` equal
to the storage key of the last file. -/
theorem FileHandler_ListFiles_exact_page (minio : MinioService) (c : Context) (user : UserInfo)
    (N : Int)
    (huser : c.Get "userInfo" = some (.userInfo user))
    (hlimit : strconv.Atoi (c.DefaultQuery "limit" "20") = some N)
    (hcursor : c.Query "cursor" = "")
    (hN : 1 ≤ N) (hmax : N ≤ 100)
    (hcount : ((minio.subjectFiles user.Sub).length : Int) = N) :
    ∃ nextCursor : String,
      minio.ListFiles user.Sub N "" = .ok (minio.subjectFiles user.Sub, nextCursor)
        ∧ nextCursor ≠ ""
        ∧ (minio.subjectFiles user.Sub).getLast?.map (fun f => f.Key) = some nextCursor
        ∧ FileHandler.ListFiles minio c
          = some (c.JSON 200
              [("files", .files (minio.subjectFiles user.Sub)),
               ("nextCursor", .str nextCursor), ("hasMore", .bool true)]) := by
  have hfiles := MinioService.subjectFiles_eq minio user.Sub N
  have hlen : ((Client.ListObjects minio.client
      { Prefix := sprintfDir user.Sub, Recursive := true, MaxKeys := N,
        StartAfter := "" }).length : Int) = N := by
    rw [hfiles, List.length_map] at hcount
    exact hcount
  have hsize : pageSize N 0 = (Client.ListObjects minio.client
      { Prefix := sprintfDir user.Sub, Recursive := true, MaxKeys := N,
        StartAfter := "" }).length := by
    unfold pageSize
    omega
  have hlt : pageSize N 0 - 1 < (Client.ListObjects minio.client
      { Prefix := sprintfDir user.Sub, Recursive := true, MaxKeys := N,
        StartAfter := "" }).length := by
    have := pageSize_pos N 0
    omega
  obtain ⟨o, ho⟩ : ∃ o, (Client.ListObjects minio.client
      { Prefix := sprintfDir user.Sub, Recursive := true, MaxKeys := N,
        StartAfter := "" })[pageSize N 0 - 1]? = some o :=
    ⟨_, List.getElem?_eq_getElem hlt⟩
  have hmem : o ∈ Client.ListObjects minio.client
      { Prefix := sprintfDir user.Sub, Recursive := true, MaxKeys := N, StartAfter := "" } :=
    List.mem_iff_getElem?.mpr ⟨_, ho⟩
  have hkey : o.Key ≠ "" := Client.ListObjects_key_ne_empty _ user.Sub _ rfl o hmem
  have hlist : minio.ListFiles user.Sub N "" = .ok (minio.subjectFiles user.Sub, o.Key) := by
    rw [MinioService.ListFiles_eq, ho, hfiles, hsize, List.take_length]
    rfl
  refine ⟨o.Key, hlist, hkey, ?_, ?_⟩
  · rw [hfiles, List.getLast?_map]
    have htake := getLast?_take_of_getElem? _ _ o (pageSize_pos N 0) ho
    rw [hsize, List.take_length] at htake
    rw [htake]
    rfl
  · unfold FileHandler.ListFiles
    have hrange : ¬ (N ≤ 0 ∨ N > 100) := by omega
    simp only [huser, hlimit, hcursor, hrange, if_false, hlist]
    simp [hkey]
    rfl

/-- Witness for C3 (amended): `report.pdf` uploaded as `u123`, listed with
`limit=1`. -/
theorem FileHandler_ListFiles_exact_page_witness :
    ∃ nextCursor : String,
      reportBucket.ListFiles "u123" 1 "" = .ok (reportBucket.subjectFiles "u123", nextCursor)
        ∧ nextCursor ≠ ""
        ∧ (reportBucket.subjectFiles "u123").getLast?.map (fun f => f.Key) = some nextCursor
        ∧ FileHandler.ListFiles reportBucket (listRequest "1")
          = some ((listRequest "1").JSON 200
              [("files", .files (reportBucket.subjectFiles "u123")),
               ("nextCursor", .str nextCursor), ("hasMore", .bool true)]) :=
  FileHandler_ListFiles_exact_page reportBucket (listRequest "1")
    ⟨"u123", true, "alice@example.com", "Alice", "A"⟩ 1
    (by decide) (by decide) (by decide) (by decide) (by decide) (by decide)

/-! ## Object Namespace Facade: pagination -/

theorem keyLess_self (a : String) : keyLess a a = false := by
  unfold keyLess
  simp

theorem keyLess_of_lt (a b : String) (h : a.data < b.data) : keyLess a b = true := by
  unfold keyLess
  simpa using h

theorem keyLess_of_gt (a b : String) (h : b.data < a.data) : keyLess a b = false := by
  unfold keyLess
  simpa using le_of_lt h

/-- In a bucket with ascending keys, the objects whose key is strictly after the
key of the object at index `i` are the objects after index `i`. -/
theorem filter_keyLess_eq_drop (l : List Object)
    (hasc : List.Pairwise (fun x y : Object => x.Key.data < y.Key.data) l) :
    ∀ (i : Nat) (x : Object), l[i]? = some x →
      l.filter (fun o => keyLess x.Key o.Key) = l.drop (i + 1) := by
  induction l with
  | nil =>
    intro i x hx
    simp at hx
  | cons a rest ih =>
    intro i x hx
    obtain ⟨hhead, htail⟩ := List.pairwise_cons.mp hasc
    cases i with
    | zero =>
      have hxa : a = x := by simpa using hx
      subst hxa
      have hall : rest.filter (fun o => keyLess a.Key o.Key) = rest :=
        List.filter_eq_self.mpr (fun o ho => keyLess_of_lt _ _ (hhead o ho))
      simp [List.filter, keyLess_self, hall]
    | succ j =>
      have hx1 : rest[j]? = some x := by simpa using hx
      have hmem : x ∈ rest := List.mem_iff_getElem?.mpr ⟨_, hx1⟩
      have hlt := keyLess_of_gt x.Key a.Key (hhead x hmem)
      simp [List.filter, hlt, ih htail j x hx1]

/-- C8: in a bucket with ascending keys that does not change between the calls,
for every limit `N ≥ 1`, if `ListFiles(subject, N, "")` returns exactly `N` items
and the cursor `c`, then `ListFiles(subject, N, c)` returns the items that
immediately follow in the full listing of the subject: the first page is its
first `N` entries, the second page the next up to `N` entries, the two pages
together are its first `min(2N, total)` entries, and no key is repeated. -/
theorem ListFiles_cursor_next_page (s : MinioService) (userID : String) (N : Int)
    (files1 : List FileMetadata) (cursor : String)
    (hN : 1 ≤ N) (hasc : s.client.Ascending)
    (hfirst : s.ListFiles userID N "" = .ok (files1, cursor))
    (hfull : (files1.length : Int) = N) :
    ∃ files2 cursor2, s.ListFiles userID N cursor = .ok (files2, cursor2)
      ∧ files1 = (s.subjectFiles userID).take N.toNat
      ∧ files2 = ((s.subjectFiles userID).drop N.toNat).take N.toNat
      ∧ files1 ++ files2
          = (s.subjectFiles userID).take (min (2 * N.toNat) (s.subjectFiles userID).length)
      ∧ ((files1 ++ files2).map (fun f => f.Key)).Nodup := by
  have hsize : pageSize N 0 = N.toNat := by
    unfold pageSize
    omega
  have hpos : 1 ≤ N.toNat := by omega
  -- the objects of the subject
  set B := s.client.filter (fun o => strings.HasPrefix o.Key (sprintfDir userID)) with hB
  have hBasc : List.Pairwise (fun x y : Object => x.Key.data < y.Key.data) B :=
    List.Pairwise.filter _ hasc
  have hch1 : Client.ListObjects s.client
      { Prefix := sprintfDir userID, Recursive := true, MaxKeys := N, StartAfter := "" }
      = B.map Object.info := Client.ListObjects_no_cursor _ _ _
  have hF : s.subjectFiles userID
      = (B.map Object.info).map (ObjectInfo.toFile (sprintfDir userID)) := rfl
  -- the first page
  have h1 := MinioService.ListFiles_eq s userID N ""
  rw [hfirst, hch1, hsize] at h1
  have hfiles1 : files1
      = ((B.map Object.info).take N.toNat).map (ObjectInfo.toFile (sprintfDir userID)) :=
    congrArg Prod.fst (Except.ok.inj h1)
  have hcursor : cursor
      = (((B.map Object.info)[N.toNat - 1]?).map (fun o => o.Key)).getD "" :=
    congrArg Prod.snd (Except.ok.inj h1)
  have hlenB : N.toNat ≤ B.length := by
    have hl := congrArg List.length hfiles1
    rw [List.length_map, List.length_take, List.length_map] at hl
    omega
  obtain ⟨x, hx⟩ : ∃ x, B[N.toNat - 1]? = some x :=
    ⟨_, List.getElem?_eq_getElem (by omega)⟩
  have hcx : cursor = x.Key := by
    rw [hcursor, List.getElem?_map, hx]
    rfl
  have hxmem : x ∈ B := List.mem_iff_getElem?.mpr ⟨_, hx⟩
  have hcne : cursor ≠ "" := by
    rw [hcx]
    exact key_ne_empty_of_HasPrefix _ userID (by simpa using (List.mem_filter.mp hxmem).2)
  -- the second page
  have hch2 : Client.ListObjects s.client
      { Prefix := sprintfDir userID, Recursive := true, MaxKeys := N, StartAfter := cursor }
      = (B.drop N.toNat).map Object.info := by
    have hdrop := filter_keyLess_eq_drop B hBasc (N.toNat - 1) x hx
    rw [Nat.sub_add_cancel hpos] at hdrop
    unfold Client.ListObjects
    rw [← hdrop, hB, List.filter_filter, hcx]
    have hxne : x.Key ≠ "" := hcx ▸ hcne
    congr 1
    apply List.filter_congr
    intro o _
    simp [hxne, Bool.and_comm]
  have h2 := MinioService.ListFiles_eq s userID N cursor
  rw [hch2, hsize, List.map_drop, List.map_take, List.map_drop, ← hF] at h2
  have hfiles1F : files1 = (s.subjectFiles userID).take N.toNat := by
    rw [hfiles1, hF, List.map_take]
  have hlenF : (s.subjectFiles userID).length = B.length := by
    rw [hF, List.length_map, List.length_map]
  have hpages : (s.subjectFiles userID).take N.toNat
        ++ ((s.subjectFiles userID).drop N.toNat).take N.toNat
      = (s.subjectFiles userID).take (N.toNat + N.toNat) := (List.take_add _ _ _).symm
  refine ⟨_, _, h2, hfiles1F, rfl, ?_, ?_⟩
  · rw [hfiles1F, hpages, List.take_eq_take]
    omega
  · have hkeys : ((s.subjectFiles userID).map (fun f => f.Key)).Nodup := by
      rw [hF, List.map_map, List.map_map]
      have hpw : List.Pairwise (fun a b : String => a ≠ b)
          (B.map ((fun f : FileMetadata => f.Key) ∘ ObjectInfo.toFile (sprintfDir userID)
            ∘ Object.info)) := by
        rw [List.pairwise_map]
        refine List.Pairwise.imp ?_ hBasc
        intro a b hab heq
        have hk : a.Key = b.Key := heq
        rw [hk] at hab
        exact lt_irrefl _ hab
      exact hpw
    rw [hfiles1F, hpages]
    exact hkeys.sublist (List.Sublist.map _ (List.take_sublist _ _))

/-- Witness for C8: the three files of `u123`, listed two at a time. -/
theorem ListFiles_cursor_next_page_witness :
    ∃ files2 cursor2, threeFilesBucket.ListFiles "u123" 2 "u123/b.txt" = .ok (files2, cursor2)
      ∧ (threeFilesBucket.subjectFiles "u123").take 2
          = (threeFilesBucket.subjectFiles "u123").take (2 : Int).toNat
      ∧ files2 = ((threeFilesBucket.subjectFiles "u123").drop (2 : Int).toNat).take (2 : Int).toNat
      ∧ (threeFilesBucket.subjectFiles "u123").take 2 ++ files2
          = (threeFilesBucket.subjectFiles "u123").take
              (min (2 * (2 : Int).toNat) (threeFilesBucket.subjectFiles "u123").length)
      ∧ (((threeFilesBucket.subjectFiles "u123").take 2 ++ files2).map (fun f => f.Key)).Nodup :=
  ListFiles_cursor_next_page threeFilesBucket "u123" 2
    ((threeFilesBucket.subjectFiles "u123").take 2) "u123/b.txt"
    (by decide) (by unfold Bucket.Ascending; decide) rfl (by decide)

/-! ## Object Namespace Facade: namespace isolation -/

/-- Two keys `a/n` and `b/k` are equal only if the subjects are equal or the
prefix of one subject is a prefix of the other subject. -/
theorem append_slash_eq (a b n k : List Char) (h : a ++ '/' :: n = b ++ '/' :: k) :
    a = b ∨ (a ++ ['/']) <+: b ∨ (b ++ ['/']) <+: a := by
  rcases List.append_eq_append_iff.mp h with ⟨t, hb, hn⟩ | ⟨t, ha, hk⟩
  · cases t with
    | nil => exact Or.inl (by simpa using hb.symm)
    | cons c t =>
      have hc : c = '/' := by
        have := List.head_eq_of_cons_eq hn
        exact this.symm
      subst hc
      exact Or.inr (Or.inl ⟨t, by rw [hb]; simp⟩)
  · cases t with
    | nil => exact Or.inl (by simpa using ha)
    | cons c t =>
      have hc : c = '/' := by
        have := List.head_eq_of_cons_eq hk
        exact this.symm
      subst hc
      exact Or.inr (Or.inr ⟨t, by rw [ha]; simp⟩)

theorem sprintfSlash_data (a b : String) : (sprintfSlash a b).data = a.data ++ '/' :: b.data := by
  unfold sprintfSlash
  rw [String.data_append, String.data_append]
  simp

theorem sprintfDir_data (a : String) : (sprintfDir a).data = a.data ++ ['/'] := by
  unfold sprintfDir
  rw [String.data_append]

theorem HasPrefix_eq_false_iff (s p : String) :
    strings.HasPrefix s p = false ↔ ¬ p.data <+: s.data := by
  unfold strings.HasPrefix
  rw [← List.isPrefixOf_iff_prefix]
  cases p.data.isPrefixOf s.data <;> simp

/-- For subjects `A ≠ B` neither of whose prefixes `A/`, `B/` is a prefix of the
other subject, no key of `B` equals a key of `A`. -/
theorem sprintfSlash_ne (A B n k : String) (hAB : A ≠ B)
    (hA : strings.HasPrefix B (sprintfDir A) = false)
    (hB : strings.HasPrefix A (sprintfDir B) = false) :
    sprintfSlash B k ≠ sprintfSlash A n := by
  intro heq
  have hdata := congrArg String.data heq
  rw [sprintfSlash_data, sprintfSlash_data] at hdata
  rw [HasPrefix_eq_false_iff, sprintfDir_data] at hA hB
  rcases append_slash_eq _ _ _ _ hdata with h | h | h
  · exact hAB (String.ext h).symm
  · exact hB h
  · exact hA h

/-- Under the same conditions no key of `A` lies under the prefix `B/`. -/
theorem sprintfSlash_not_under (A B n : String) (hAB : A ≠ B)
    (hA : strings.HasPrefix B (sprintfDir A) = false)
    (hB : strings.HasPrefix A (sprintfDir B) = false) :
    strings.HasPrefix (sprintfSlash A n) (sprintfDir B) = false := by
  rw [HasPrefix_eq_false_iff, sprintfDir_data, sprintfSlash_data]
  rintro ⟨t, ht⟩
  have hkey : sprintfSlash B (String.mk t) = sprintfSlash A n := by
    apply String.ext
    rw [sprintfSlash_data, sprintfSlash_data, ← ht]
    simp
  exact sprintfSlash_ne A B n (String.mk t) hAB hA hB hkey

theorem find?_put_self (b : Bucket) (o : Object) :
    (Bucket.put b o).find? (fun x => x.Key == o.Key) = some o := by
  induction b with
  | nil => simp [Bucket.put]
  | cons x xs ih =>
    unfold Bucket.put
    by_cases hlt : keyLess o.Key x.Key = true
    · simp [hlt]
    · by_cases heq : o.Key = x.Key
      · simp only [hlt, if_false, Bool.false_eq_true]
        rw [if_pos heq, List.find?_cons]
        simp
      · have hne : (x.Key == o.Key) = false := by simpa using fun h : x.Key = o.Key => heq h.symm
        simp only [hlt, heq, if_false, Bool.false_eq_true]
        rw [List.find?_cons, hne]
        exact ih

theorem find?_put_ne (b : Bucket) (o : Object) (key : String) (hkey : o.Key ≠ key) :
    (Bucket.put b o).find? (fun x => x.Key == key) = b.find? (fun x => x.Key == key) := by
  have hne : (o.Key == key) = false := by simpa using hkey
  induction b with
  | nil => simp [Bucket.put, hne]
  | cons x xs ih =>
    unfold Bucket.put
    by_cases hlt : keyLess o.Key x.Key = true
    · simp only [hlt, if_true]
      rw [List.find?_cons, hne]
    · by_cases heq : o.Key = x.Key
      · have hx : (x.Key == key) = false := by rw [← heq]; exact hne
        simp only [hlt, if_false, Bool.false_eq_true]
        rw [if_pos heq, List.find?_cons, List.find?_cons, hx, hne]
      · simp only [hlt, heq, if_false, Bool.false_eq_true]
        rw [List.find?_cons, List.find?_cons, ih]

theorem find?_filter_ne (b : Bucket) (removed key : String) (hkey : key ≠ removed) :
    (b.filter (fun o => o.Key != removed)).find? (fun x => x.Key == key)
      = b.find? (fun x => x.Key == key) := by
  induction b with
  | nil => rfl
  | cons x xs ih =>
    by_cases hx : x.Key = removed
    · have h1 : (x.Key != removed) = false := by simpa using hx
      have h2 : (x.Key == key) = false := by
        rw [hx]
        simpa using fun h : removed = key => hkey h.symm
      rw [List.filter_cons, h1, List.find?_cons, h2]
      simpa using ih
    · have h1 : (x.Key != removed) = true := by simpa using hx
      rw [List.filter_cons, h1]
      simp only [if_true]
      rw [List.find?_cons, List.find?_cons, ih]

/-- Every file returned by `ListFiles` for a subject has a key under the prefix
of the subject. -/
theorem MinioService.ListFiles_keys_under (s : MinioService) (userID : String) (limit : Int)
    (offset : String) (files : List FileMetadata) (nextCursor : String)
    (h : s.ListFiles userID limit offset = .ok (files, nextCursor)) :
    ∀ f ∈ files, strings.HasPrefix f.Key (sprintfDir userID) = true := by
  rw [MinioService.ListFiles_eq] at h
  have hfiles : (((Client.ListObjects s.client
      { Prefix := sprintfDir userID, Recursive := true, MaxKeys := limit,
        StartAfter := offset }).take (pageSize limit 0)).map
      (ObjectInfo.toFile (sprintfDir userID))) = files := congrArg Prod.fst (Except.ok.inj h)
  intro f hf
  rw [← hfiles] at hf
  obtain ⟨o, ho, hof⟩ := List.mem_map.mp hf
  have hmem := List.mem_of_mem_take ho
  unfold Client.ListObjects at hmem
  obtain ⟨x, hx, hxo⟩ := List.mem_map.mp hmem
  have hfil := (List.mem_filter.mp hx).2
  rw [Bool.and_eq_true] at hfil
  rw [← hof, ← hxo]
  exact hfil.1

/-- C4 (as stated, refuted): the subjects `a/b` and `a` differ, yet the key of
the file `c` of `a/b` is the key of the file `b/c` of `a` and lies under the
prefix `a/`: after the upload by `a/b`, subject `a` sees the key in its listing,
retrieves the content and deletes the object. -/
theorem namespace_isolation_counterexample :
    ("a/b" : String) ≠ "a"
      ∧ sprintfSlash "a" "b/c" = sprintfSlash "a/b" "c"
      ∧ strings.HasPrefix (sprintfSlash "a/b" "c") (sprintfDir "a") = true
      ∧ nestedSubjectBucket.ListFiles "a" 20 ""
          = .ok ([{ Key := "a/b/c", Name := "b/c", Size := 6, ContentType := "text/plain",
                    LastModified := 1735689600, ETag := "etag-2" }], "")
      ∧ nestedSubjectBucket.GetFile "a" "b/c"
          = .ok ("secret", { Key := "a/b/c", Name := "b/c", Size := 6,
                             ContentType := "text/plain", LastModified := 1735689600,
                             ETag := "etag-2" })
      ∧ nestedSubjectBucket.DeleteFile "a" "b/c" = .ok { client := [], bucketName := "files" } :=
  ⟨by decide, by decide, by decide, rfl, rfl, rfl⟩

/-- C4 (amended): for subjects `A ≠ B` such that neither `A/` is a prefix of `B`
nor `B/` a prefix of `A` (in particular when no subject identifier contains `/`)
and every file name `n`: no file key `k` makes `B/k` equal to `A/n`, and `A/n`
does not have the prefix `B/`. After `UploadFile(A, n)` the object is stored under
`A/n` and `A` retrieves it; `GetFile(B, k)` returns what it returned before the
upload and never the key of `A`; `GetPresignedURL(B, k)` never asks for a URL of
that key; `ListFiles(B, limit, cursor)` never returns that key; and after
`DeleteFile(B, k)` the file of `A` is retrieved as before. -/
theorem namespace_isolation (A B n : String) (hAB : A ≠ B)
    (hA : strings.HasPrefix B (sprintfDir A) = false)
    (hB : strings.HasPrefix A (sprintfDir B) = false) :
    (∀ k, sprintfSlash B k ≠ sprintfSlash A n)
      ∧ strings.HasPrefix (sprintfSlash A n) (sprintfDir B) = false
      ∧ ∀ (s s1 : MinioService) (content : String) (size : Int)
          (contentType uploadTime etag : String) (modified : Time) (uploaded : FileMetadata),
          s.UploadFile A n content size contentType uploadTime etag modified
              = .ok (uploaded, s1) →
            uploaded.Key = sprintfSlash A n
              ∧ s1.GetFile A n
                = .ok (content, { Key := sprintfSlash A n, Name := n, Size := size,
                                  ContentType := contentType, LastModified := modified,
                                  ETag := etag })
              ∧ (∀ k, s1.GetFile B k = s.GetFile B k)
              ∧ (∀ k object md, s1.GetFile B k = .ok (object, md) → md.Key ≠ uploaded.Key)
              ∧ (∀ (presignedGetObject : String → String → Duration → Except String String)
                  (k : String) (expiry : Duration),
                  s1.GetPresignedURL presignedGetObject B k expiry
                    = s1.GetPresignedURL
                        (fun bucketName objectName e =>
                          if objectName = uploaded.Key then .error "not asked"
                          else presignedGetObject bucketName objectName e) B k expiry)
              ∧ (∀ limit cursor files nextCursor,
                  s1.ListFiles B limit cursor = .ok (files, nextCursor) →
                    ∀ f ∈ files, f.Key ≠ uploaded.Key)
              ∧ (∀ k s2, s1.DeleteFile B k = .ok s2 → s2.GetFile A n = s1.GetFile A n) := by
  have hne : ∀ k, sprintfSlash B k ≠ sprintfSlash A n :=
    fun k => sprintfSlash_ne A B n k hAB hA hB
  have hunder := sprintfSlash_not_under A B n hAB hA hB
  refine ⟨hne, hunder, ?_⟩
  intro s s1 content size contentType uploadTime etag modified uploaded hup
  unfold MinioService.UploadFile Client.PutObject at hup
  have hpair := Except.ok.inj hup
  have hkey : uploaded.Key = sprintfSlash A n :=
    (congrArg (fun p : FileMetadata × MinioService => p.1.Key) hpair).symm
  have hs1 : s1.client = Bucket.put s.client
      { Key := sprintfSlash A n, Content := content, Size := size, ContentType := contentType,
        LastModified := modified, ETag := etag,
        UserMetadata := [("uploaded-by", A), ("upload-time", uploadTime)] } :=
    (congrArg (fun p : FileMetadata × MinioService => p.2.client) hpair).symm
  refine ⟨hkey, ?_, ?_, ?_, ?_, ?_, ?_⟩
  · unfold MinioService.GetFile Client.StatObject Client.GetObject
    simp only [hs1]
    rw [find?_put_self s.client
      { Key := sprintfSlash A n, Content := content, Size := size, ContentType := contentType,
        LastModified := modified, ETag := etag,
        UserMetadata := [("uploaded-by", A), ("upload-time", uploadTime)] }]
    rfl
  · intro k
    unfold MinioService.GetFile Client.StatObject Client.GetObject
    simp only [hs1]
    rw [find?_put_ne s.client _ (sprintfSlash B k) (fun h => hne k h.symm)]
  · intro k object md hget
    unfold MinioService.GetFile at hget
    rw [hkey]
    cases hstat : Client.StatObject s1.client (sprintfSlash B k) with
    | error err => simp [hstat] at hget
    | ok info =>
      cases hobj : Client.GetObject s1.client (sprintfSlash B k) with
      | error err => simp [hstat, hobj] at hget
      | ok obj =>
        simp only [hstat, hobj] at hget
        have hmd : sprintfSlash B k = md.Key :=
          congrArg (fun p : String × FileMetadata => p.2.Key) (Except.ok.inj hget)
        rw [← hmd]
        exact hne k
  · intro presignedGetObject k expiry
    unfold MinioService.GetPresignedURL
    have hk : sprintfSlash B k ≠ uploaded.Key := by rw [hkey]; exact hne k
    simp [hk]
  · intro limit cursor files nextCursor hlist f hf heq
    have hpre := MinioService.ListFiles_keys_under s1 B limit cursor files nextCursor hlist f hf
    rw [heq, hkey, hunder] at hpre
    exact absurd hpre (by decide)
  · intro k s2 hdel
    unfold MinioService.DeleteFile Client.RemoveObject at hdel
    have hs2 : s2.client = s1.client.filter (fun o => o.Key != sprintfSlash B k) :=
      (congrArg MinioService.client (Except.ok.inj hdel)).symm
    unfold MinioService.GetFile Client.StatObject Client.GetObject
    simp only [hs2]
    rw [find?_filter_ne s1.client (sprintfSlash B k) (sprintfSlash A n) (fun h => hne k h.symm)]

/-- Witness for C4 (amended): subjects `u123` and `u456`, and the file
`report.pdf` of `u123` uploaded to the empty bucket. -/
theorem namespace_isolation_witness :
    (∀ k, sprintfSlash "u456" k ≠ sprintfSlash "u123" "report.pdf")
      ∧ strings.HasPrefix (sprintfSlash "u123" "report.pdf") (sprintfDir "u456") = false
      ∧ (∀ k s2, reportBucket.DeleteFile "u456" k = .ok s2 →
          s2.GetFile "u123" "report.pdf" = reportBucket.GetFile "u123" "report.pdf") :=
  have h := namespace_isolation "u123" "u456" "report.pdf" (by decide) (by decide) (by decide)
  ⟨h.1, h.2.1,
    (h.2.2 { client := [], bucketName := "files" } reportBucket "%PDF" 4 "application/pdf"
      "2025-01-01T00:00:00Z" "etag-1" 1735689600
      { Key := "u123/report.pdf", Name := "report.pdf", Size := 4,
        ContentType := "application/pdf", LastModified := 0, ETag := "etag-1" } rfl).2.2.2.2.2.2⟩

/-! ## Token Inspector: tokens that cannot be used -/

/-- C12: `isTokenExpired` is a total function of the token string (it returns
for every input, malformed ones included), and it returns `(true, 0)` whenever
the string does not parse, the parsed claims are not token claims, the claims
carry no expiry, or the expiry is strictly before the current time, whatever the
other claims (subject, issued-at, not-before and the custom ones) are. -/
theorem isTokenExpired_unusable (parseUnverified : String → Except String Token) (now : Time)
    (tokenString : String)
    (h : (∃ err, parseUnverified tokenString = .error err)
      ∨ (∃ token, parseUnverified tokenString = .ok token ∧ token.Claims = .other)
      ∨ (∃ token claims, parseUnverified tokenString = .ok token
          ∧ token.Claims = .tokenClaims claims ∧ claims.ExpiresAt = none)
      ∨ (∃ token claims expiry, parseUnverified tokenString = .ok token
          ∧ token.Claims = .tokenClaims claims ∧ claims.ExpiresAt = some expiry
          ∧ expiry < now)) :
    isTokenExpired parseUnverified now tokenString = (true, 0) := by
  unfold isTokenExpired
  rcases h with ⟨err, herr⟩ | ⟨token, hok, hother⟩ | ⟨token, claims, hok, hclaims, hnone⟩
    | ⟨token, claims, expiry, hok, hclaims, hsome, hlt⟩
  · rw [herr]
  · simp only [hok, hother]
  · simp only [hok, hclaims, hnone]
  · simp only [hok, hclaims, hsome, Time.Before]
    simp [hlt]

/-- Witness for C12: a token that expired five minutes ago, with a not-before
and an issued-at claim in the future. -/
theorem isTokenExpired_unusable_witness :
    isTokenExpired
        (fun _ => .ok ⟨.tokenClaims
          ⟨"u123", some 0, some (10 * Minute), some (10 * Minute), "alice", "a@example.com",
            true⟩⟩)
        (5 * Minute) "header.payload.signature" = (true, 0) :=
  isTokenExpired_unusable _ (5 * Minute) "header.payload.signature"
    (Or.inr (Or.inr (Or.inr
      ⟨⟨.tokenClaims ⟨"u123", some 0, some (10 * Minute), some (10 * Minute), "alice",
          "a@example.com", true⟩⟩,
        ⟨"u123", some 0, some (10 * Minute), some (10 * Minute), "alice", "a@example.com", true⟩,
        0, rfl, rfl, rfl, by decide⟩)))

/-! ## Proactive refresh stage -/

theorem Context.handlerRuns_Next (c : Context) (hlive : c.aborted = false) :
    c.Next.handlerRuns = c.handlerRuns + 1 := by
  unfold Context.Next
  simp [hlive]

/-- C11: for every request, threshold and behaviour of the identity provider, the
proactive stage, run on a context that is not aborted, does not abort, writes no
response, runs the downstream handler once and leaves the values attached to the
context (`userInfo` and `accessToken` among them) unchanged. It calls the
provider at most once, with a refresh; it does so exactly when the access token
and the refresh token are non-empty and the access token is not expired with a
remaining time above zero and below the threshold; without a refresh call, and
when the refresh call fails, the response headers are unchanged. -/
theorem ProactiveTokenRefreshMiddleware_never_aborts (keycloak : KeycloakService)
    (parseUnverified : String → Except String Token) (now : Time) (thresholdMinutes : Int)
    (calls : List Call) (c : Context) (hlive : c.aborted = false) :
    (ProactiveTokenRefreshMiddleware keycloak parseUnverified now thresholdMinutes calls
        c).1.aborted = false
      ∧ (ProactiveTokenRefreshMiddleware keycloak parseUnverified now thresholdMinutes calls
        c).1.written = c.written
      ∧ (ProactiveTokenRefreshMiddleware keycloak parseUnverified now thresholdMinutes calls
        c).1.handlerRuns = c.handlerRuns + 1
      ∧ (ProactiveTokenRefreshMiddleware keycloak parseUnverified now thresholdMinutes calls
        c).1.Keys = c.Keys
      ∧ (ProactiveTokenRefreshMiddleware keycloak parseUnverified now thresholdMinutes calls
        c).1.Get "userInfo" = c.Get "userInfo"
      ∧ (ProactiveTokenRefreshMiddleware keycloak parseUnverified now thresholdMinutes calls
        c).1.Get "accessToken" = c.Get "accessToken"
      ∧ ((c.GetString "accessToken" ≠ "" ∧ c.GetHeader "X-Refresh-Token" ≠ ""
            ∧ (isTokenExpired parseUnverified now (c.GetString "accessToken")).1 = false
            ∧ 0 < (isTokenExpired parseUnverified now (c.GetString "accessToken")).2
            ∧ (isTokenExpired parseUnverified now (c.GetString "accessToken")).2
                < wrapInt64 (thresholdMinutes * Minute)) →
          (ProactiveTokenRefreshMiddleware keycloak parseUnverified now thresholdMinutes calls
            c).2 = calls ++ [Call.RefreshToken (c.GetHeader "X-Refresh-Token")])
      ∧ (¬ (c.GetString "accessToken" ≠ "" ∧ c.GetHeader "X-Refresh-Token" ≠ ""
            ∧ (isTokenExpired parseUnverified now (c.GetString "accessToken")).1 = false
            ∧ 0 < (isTokenExpired parseUnverified now (c.GetString "accessToken")).2
            ∧ (isTokenExpired parseUnverified now (c.GetString "accessToken")).2
                < wrapInt64 (thresholdMinutes * Minute)) →
          (ProactiveTokenRefreshMiddleware keycloak parseUnverified now thresholdMinutes calls
              c).2 = calls
            ∧ (ProactiveTokenRefreshMiddleware keycloak parseUnverified now thresholdMinutes
              calls c).1.respHeader = c.respHeader)
      ∧ (∀ err, keycloak.RefreshToken calls (c.GetHeader "X-Refresh-Token") = .error err →
          (ProactiveTokenRefreshMiddleware keycloak parseUnverified now thresholdMinutes calls
            c).1.respHeader = c.respHeader) := by
  have hnext : c.Next.aborted = false ∧ c.Next.written = c.written
      ∧ c.Next.handlerRuns = c.handlerRuns + 1 ∧ c.Next.Keys = c.Keys
      ∧ c.Next.respHeader = c.respHeader :=
    ⟨by rw [Context.aborted_Next]; exact hlive, Context.written_Next c,
      Context.handlerRuns_Next c hlive, Context.Keys_Next c, Context.respHeader_Next c⟩
  by_cases htokens : c.GetString "accessToken" ≠ "" ∧ c.GetHeader "X-Refresh-Token" ≠ ""
  · by_cases hwindow : (isTokenExpired parseUnverified now (c.GetString "accessToken")).1 = false
        ∧ (isTokenExpired parseUnverified now (c.GetString "accessToken")).2
            < wrapInt64 (thresholdMinutes * Minute)
        ∧ (isTokenExpired parseUnverified now (c.GetString "accessToken")).2 > 0
    · cases hrefresh : keycloak.RefreshToken calls (c.GetHeader "X-Refresh-Token") with
      | error err =>
        have hrun : ProactiveTokenRefreshMiddleware keycloak parseUnverified now thresholdMinutes
            calls c = (c.Next, calls ++ [Call.RefreshToken (c.GetHeader "X-Refresh-Token")]) := by
          unfold ProactiveTokenRefreshMiddleware
          simp [htokens, hwindow, hrefresh]
        rw [hrun]
        refine ⟨hnext.1, hnext.2.1, hnext.2.2.1, hnext.2.2.2.1, ?_, ?_, fun _ => rfl, ?_,
          fun _ _ => hnext.2.2.2.2⟩
        · exact Context.Get_Next c _
        · exact Context.Get_Next c _
        · intro hnot
          exact absurd ⟨htokens.1, htokens.2, hwindow.1, hwindow.2.2, hwindow.2.1⟩ hnot
      | ok newTokens =>
        have hrun : ProactiveTokenRefreshMiddleware keycloak parseUnverified now thresholdMinutes
            calls c
            = (((((c.Header "X-New-Access-Token" newTokens.AccessToken).Header
                "X-New-Refresh-Token" newTokens.RefreshToken).Header "X-Token-Refreshed"
                "true").Header "X-Token-Expires-In"
                (stringOfRune (rune newTokens.ExpiresIn))).Next,
              calls ++ [Call.RefreshToken (c.GetHeader "X-Refresh-Token")]) := by
          unfold ProactiveTokenRefreshMiddleware
          simp [htokens, hwindow, hrefresh]
        rw [hrun]
        have hab : ((((c.Header "X-New-Access-Token" newTokens.AccessToken).Header
            "X-New-Refresh-Token" newTokens.RefreshToken).Header "X-Token-Refreshed"
            "true").Header "X-Token-Expires-In"
            (stringOfRune (rune newTokens.ExpiresIn))).aborted = false := by
          simp only [Context.aborted_Header]
          exact hlive
        refine ⟨?_, ?_, ?_, ?_, ?_, ?_, fun _ => rfl, ?_, ?_⟩
        · rw [Context.aborted_Next]
          exact hab
        · simp only [Context.written_Next, Context.written_Header]
        · rw [Context.handlerRuns_Next _ hab]
          simp only [Context.handlerRuns_Header]
        · simp only [Context.Keys_Next, Context.Keys_Header]
        · simp only [Context.Get_Next, Context.Get_Header]
        · simp only [Context.Get_Next, Context.Get_Header]
        · intro hnot
          exact absurd ⟨htokens.1, htokens.2, hwindow.1, hwindow.2.2, hwindow.2.1⟩ hnot
        · intro err herr
          exact absurd herr (by simp)
    · have hrun : ProactiveTokenRefreshMiddleware keycloak parseUnverified now thresholdMinutes
          calls c = (c.Next, calls) := by
        unfold ProactiveTokenRefreshMiddleware
        simp only [if_pos htokens, if_neg hwindow]
      rw [hrun]
      refine ⟨hnext.1, hnext.2.1, hnext.2.2.1, hnext.2.2.2.1, Context.Get_Next c _,
        Context.Get_Next c _, ?_, fun _ => ⟨rfl, hnext.2.2.2.2⟩, fun _ _ => hnext.2.2.2.2⟩
      intro hall
      exact absurd ⟨hall.2.2.1, hall.2.2.2.2, hall.2.2.2.1⟩ hwindow
  · have hrun : ProactiveTokenRefreshMiddleware keycloak parseUnverified now thresholdMinutes
        calls c = (c.Next, calls) := by
      unfold ProactiveTokenRefreshMiddleware
      simp only [if_neg htokens]
    rw [hrun]
    refine ⟨hnext.1, hnext.2.1, hnext.2.2.1, hnext.2.2.2.1, Context.Get_Next c _,
      Context.Get_Next c _, ?_, fun _ => ⟨rfl, hnext.2.2.2.2⟩, fun _ _ => hnext.2.2.2.2⟩
    intro hall
    exact absurd ⟨hall.1, hall.2.1⟩ htokens

/-- Witness for C11: the token has one minute left, the threshold is five
minutes, and the provider rejects the refresh. -/
theorem ProactiveTokenRefreshMiddleware_never_aborts_witness :
    (ProactiveTokenRefreshMiddleware rejectingProvider (parseWithExpiry (6 * Minute))
        (5 * Minute) 5 [] (resolvedRequest [("X-Refresh-Token", "rt")])).1.aborted = false
      ∧ (ProactiveTokenRefreshMiddleware rejectingProvider (parseWithExpiry (6 * Minute))
        (5 * Minute) 5 [] (resolvedRequest [("X-Refresh-Token", "rt")])).1.written = []
      ∧ (ProactiveTokenRefreshMiddleware rejectingProvider (parseWithExpiry (6 * Minute))
        (5 * Minute) 5 [] (resolvedRequest [("X-Refresh-Token", "rt")])).1.handlerRuns = 0 + 1
      ∧ (ProactiveTokenRefreshMiddleware rejectingProvider (parseWithExpiry (6 * Minute))
        (5 * Minute) 5 [] (resolvedRequest [("X-Refresh-Token", "rt")])).2
          = [] ++ [Call.RefreshToken "rt"]
      ∧ (ProactiveTokenRefreshMiddleware rejectingProvider (parseWithExpiry (6 * Minute))
        (5 * Minute) 5 [] (resolvedRequest [("X-Refresh-Token", "rt")])).1.respHeader = [] :=
  have h := ProactiveTokenRefreshMiddleware_never_aborts rejectingProvider
    (parseWithExpiry (6 * Minute)) (5 * Minute) 5 []
    (resolvedRequest [("X-Refresh-Token", "rt")]) rfl
  ⟨h.1, h.2.1, h.2.2.1, h.2.2.2.2.2.2.1 (by decide),
    h.2.2.2.2.2.2.2.2 "keycloak refresh failed" rfl⟩

/-! ## The `X-Token-Expires-In` header -/

theorem charToNat_ofNat_of_valid (n : Nat) (hv : n.isValidChar) : (Char.ofNat n).toNat = n := by
  unfold Char.ofNat
  rw [dif_pos hv]
  unfold Char.ofNatAux Char.toNat
  simp [UInt32.toNat]

theorem rune_of_int32 (n : Int) (hlo : -2147483648 ≤ n) (hhi : n < 2147483648) : rune n = n := by
  unfold rune
  simp only
  split <;> omega

theorem stringOfRune_length (r : Int) : (stringOfRune r).length = 1 := by
  unfold stringOfRune
  split <;> simp [String.singleton, String.length]

theorem stringOfRune_of_codePoint (r : Int) (h : IsCodePoint r) :
    ∃ ch : Char, (ch.toNat : Int) = r ∧ stringOfRune r = String.singleton ch := by
  have hvalid : r.toNat.isValidChar := by
    unfold IsCodePoint at h
    unfold Nat.isValidChar
    omega
  refine ⟨Char.ofNat r.toNat, ?_, ?_⟩
  · rw [charToNat_ofNat_of_valid _ hvalid]
    unfold IsCodePoint at h
    omega
  · unfold stringOfRune
    unfold IsCodePoint at h
    rw [if_pos h]

theorem stringOfRune_of_not_codePoint (r : Int) (h : ¬ IsCodePoint r) :
    stringOfRune r = String.singleton (Char.ofNat 65533) := by
  unfold stringOfRune
  unfold IsCodePoint at h
  rw [if_neg h]

/-- C13 (as stated, refuted): for `expires_in = 4294967361`, which is not a valid
code point, the header is the letter `A` (code point 65, the low 32 bits of the
value) and not the replacement character. -/
theorem X_Token_Expires_In_counterexample :
    (AuthMiddleware (providerWithExpiresIn 4294967361) (parseWithExpiry 0) (5 * Minute) []
        (requestWith [("Authorization", "Bearer tok"), ("X-Refresh-Token", "rt")])).1.respGet
          "X-Token-Expires-In" = "A"
      ∧ ¬ IsCodePoint 4294967361
      ∧ ("A" : String) ≠ String.singleton (Char.ofNat 65533) :=
  ⟨by decide, by unfold IsCodePoint; decide, by decide⟩

/-- C13 (amended): on token rotation, in `AuthMiddleware` and in
`ProactiveTokenRefreshMiddleware`, the response header `X-Token-Expires-In` is
`string(rune(ExpiresIn))`: a string of one character, the code point whose number
is `ExpiresIn` reduced to a signed 32-bit value when that is a valid code point,
and U+FFFD otherwise. The reduction leaves every `ExpiresIn` of the signed 32-bit
range unchanged. The header is not the decimal representation: for
`ExpiresIn = 300` it is the one character U+012C and not `300`. -/
theorem X_Token_Expires_In_header :
    (∀ (keycloak : KeycloakService) (parseUnverified : String → Except String Token)
        (now : Time) (calls : List Call) (c : Context) (accessToken : String)
        (newTokens : TokenResponse) (userInfo : UserInfo),
        c.GetHeader "Authorization" ≠ "" →
        strings.Split (c.GetHeader "Authorization") ' ' = ["Bearer", accessToken] →
        ((isTokenExpired parseUnverified now accessToken).1 = true
          ∨ (isTokenExpired parseUnverified now accessToken).2 < 2 * Minute) →
        c.GetHeader "X-Refresh-Token" ≠ "" →
        keycloak.RefreshToken calls (c.GetHeader "X-Refresh-Token") = .ok newTokens →
        keycloak.GetUserInfo (calls ++ [Call.RefreshToken (c.GetHeader "X-Refresh-Token")])
          newTokens.AccessToken = .ok userInfo →
        (AuthMiddleware keycloak parseUnverified now calls c).1.respGet "X-Token-Expires-In"
          = stringOfRune (rune newTokens.ExpiresIn))
      ∧ (∀ (keycloak : KeycloakService) (parseUnverified : String → Except String Token)
        (now : Time) (thresholdMinutes : Int) (calls : List Call) (c : Context)
        (newTokens : TokenResponse),
        c.GetString "accessToken" ≠ "" →
        c.GetHeader "X-Refresh-Token" ≠ "" →
        (isTokenExpired parseUnverified now (c.GetString "accessToken")).1 = false →
        0 < (isTokenExpired parseUnverified now (c.GetString "accessToken")).2 →
        (isTokenExpired parseUnverified now (c.GetString "accessToken")).2
          < wrapInt64 (thresholdMinutes * Minute) →
        keycloak.RefreshToken calls (c.GetHeader "X-Refresh-Token") = .ok newTokens →
        (ProactiveTokenRefreshMiddleware keycloak parseUnverified now thresholdMinutes calls
          c).1.respGet "X-Token-Expires-In" = stringOfRune (rune newTokens.ExpiresIn))
      ∧ (∀ expiresIn : Int, (stringOfRune (rune expiresIn)).length = 1)
      ∧ (∀ expiresIn : Int, IsCodePoint (rune expiresIn) →
          ∃ ch : Char, (ch.toNat : Int) = rune expiresIn
            ∧ stringOfRune (rune expiresIn) = String.singleton ch)
      ∧ (∀ expiresIn : Int, ¬ IsCodePoint (rune expiresIn) →
          stringOfRune (rune expiresIn) = String.singleton (Char.ofNat 65533))
      ∧ (∀ expiresIn : Int, -2147483648 ≤ expiresIn → expiresIn < 2147483648 →
          rune expiresIn = expiresIn)
      ∧ stringOfRune (rune 300) = String.singleton (Char.ofNat 300)
      ∧ stringOfRune (rune 300) ≠ "300" := by
  refine ⟨?_, ?_, fun n => stringOfRune_length _, fun n h => stringOfRune_of_codePoint _ h,
    fun n h => stringOfRune_of_not_codePoint _ h, rune_of_int32, by decide, by decide⟩
  · intro keycloak parseUnverified now calls c accessToken newTokens userInfo hpresent hbearer
      hpath hrefresh hok huser
    have hrun : AuthMiddleware keycloak parseUnverified now calls c
        = ((((((((c.Set "userInfo" (.userInfo userInfo)).Set "accessToken"
            (.str newTokens.AccessToken)).Set "refreshToken"
            (.str newTokens.RefreshToken)).Header "X-New-Access-Token"
            newTokens.AccessToken).Header "X-New-Refresh-Token"
            newTokens.RefreshToken).Header "X-Token-Refreshed" "true").Header
            "X-Token-Expires-In" (stringOfRune (rune newTokens.ExpiresIn))).Next,
          calls ++ [Call.RefreshToken (c.GetHeader "X-Refresh-Token"),
            Call.GetUserInfo newTokens.AccessToken]) := by
      unfold AuthMiddleware
      simp [hpresent, hbearer, hrefresh, hpath, hok, huser]
    rw [hrun, Context.respGet_Next, Context.respGet_Header_self]
  · intro keycloak parseUnverified now thresholdMinutes calls c newTokens haccess hrefresh
      hvalid hpos hbelow hok
    have hrun : ProactiveTokenRefreshMiddleware keycloak parseUnverified now thresholdMinutes
        calls c
        = (((((c.Header "X-New-Access-Token" newTokens.AccessToken).Header
            "X-New-Refresh-Token" newTokens.RefreshToken).Header "X-Token-Refreshed"
            "true").Header "X-Token-Expires-In"
            (stringOfRune (rune newTokens.ExpiresIn))).Next,
          calls ++ [Call.RefreshToken (c.GetHeader "X-Refresh-Token")]) := by
      unfold ProactiveTokenRefreshMiddleware
      simp [haccess, hrefresh, hvalid, hpos, hbelow, hok]
    rw [hrun, Context.respGet_Next, Context.respGet_Header_self]

/-- Witness for C13 (amended): a rotation with `expires_in = 300` in each of the
two stages. -/
theorem X_Token_Expires_In_header_witness :
    (AuthMiddleware (providerWithExpiresIn 300) (parseWithExpiry 0) (5 * Minute) []
        (requestWith [("Authorization", "Bearer tok"), ("X-Refresh-Token", "rt")])).1.respGet
          "X-Token-Expires-In" = stringOfRune (rune 300)
      ∧ (ProactiveTokenRefreshMiddleware (providerWithExpiresIn 300)
        (parseWithExpiry (6 * Minute)) (5 * Minute) 5 []
        (resolvedRequest [("X-Refresh-Token", "rt")])).1.respGet "X-Token-Expires-In"
          = stringOfRune (rune 300) :=
  ⟨X_Token_Expires_In_header.1 (providerWithExpiresIn 300) (parseWithExpiry 0) (5 * Minute) []
      (requestWith [("Authorization", "Bearer tok"), ("X-Refresh-Token", "rt")]) "tok"
      ⟨"newAccess", 300, 1800, "newRefresh", "Bearer", "", "", ""⟩
      ⟨"u123", true, "alice@example.com", "Alice", "A"⟩
      (by decide) (by decide) (by decide) (by decide) rfl rfl,
    X_Token_Expires_In_header.2.1 (providerWithExpiresIn 300) (parseWithExpiry (6 * Minute))
      (5 * Minute) 5 [] (resolvedRequest [("X-Refresh-Token", "rt")])
      ⟨"newAccess", 300, 1800, "newRefresh", "Bearer", "", "", ""⟩
      (by decide) (by decide) (by decide) (by decide) (by decide) rfl⟩

end ApolloSFS
